import Mathlib

/-!
Verification of the MCP client pool (`src/mcp-client.ts`) of the
openclaw-mcp-adapter repository.

The TypeScript source is shallowly embedded:
JavaScript strings are `List Char`, JavaScript `Map`s are association
lists (`lookupK` / `setKey` / `eraseKey` model `get` / `set` / `delete`),
and the external collaborators (the protocol session object, the two
transports and the credential-refresh child process) are represented by
oracle streams in a `World` record: each stream element is the outcome
the collaborator would produce at the corresponding invocation.
`JSON.parse` (a JavaScript builtin) is modelled by a recursive-descent
parser over the same character lists.  Durations and timestamps are
integers (milliseconds), matching the integral arithmetic the source
performs on `Date.now()` values.
-/

namespace Mcp

/-- JavaScript string values, modelled as lists of characters. -/
abbrev JSStr := List Char

/-- Conversion from Lean string literals to the JavaScript string model. -/
def jsS (s : String) : JSStr := s.data

/-! ### Association-list model of JavaScript `Map` -/

/-- Models `Map.prototype.get`. -/
def lookupK {α : Type} (k : JSStr) : List (JSStr × α) → Option α
  | [] => none
  | (k', v) :: rest => if k' = k then some v else lookupK k rest

/-- Models `Map.prototype.set`: replaces in place when the key is present
(the JavaScript map keeps the original insertion position), appends
otherwise. -/
def setKey {α : Type} (k : JSStr) (v : α) : List (JSStr × α) → List (JSStr × α)
  | [] => [(k, v)]
  | (k', v') :: rest => if k' = k then (k, v) :: rest else (k', v') :: setKey k v rest

/-- Models `Map.prototype.delete`. -/
def eraseKey {α : Type} (k : JSStr) (m : List (JSStr × α)) : List (JSStr × α) :=
  m.filter (fun p => decide (p.1 ≠ k))

/-! ### JavaScript string primitives used by the source -/

/-- ASCII whitespace recognised by the model of `String.prototype.trim`
(the source only ever feeds it process output). -/
def isJsWs (c : Char) : Bool :=
  [' ', '\t', '\n', '\r', '\x0b', '\x0c'].contains c

/-- Leading-whitespace removal half of `trim`. -/
def trimStartC (l : JSStr) : JSStr := l.dropWhile isJsWs

/-- Trailing-whitespace removal half of `trim`. -/
def trimEndC (l : JSStr) : JSStr := ((l.reverse).dropWhile isJsWs).reverse

/-- Models `String.prototype.trim`. -/
def trimC (l : JSStr) : JSStr := trimEndC (trimStartC l)

/-- Models `split(/\r?\n/)`: a lone `\n` or a `\r\n` pair separates lines;
a `\r` not followed by `\n` stays inside its line. -/
def splitLinesC : List Char → List (List Char)
  | [] => [[]]
  | '\r' :: '\n' :: rest => [] :: splitLinesC rest
  | '\n' :: rest => [] :: splitLinesC rest
  | c :: rest =>
    match splitLinesC rest with
    | [] => [[c]]
    | l :: ls => (c :: l) :: ls

/-- Models `String.prototype.startsWith` (first argument is the
candidate long string, second the candidate head). -/
def beginsWith : JSStr → JSStr → Bool
  | _, [] => true
  | [], _ :: _ => false
  | c :: t, d :: n => c == d && beginsWith t n

/-- Models `String.prototype.includes`. -/
def containsSub : JSStr → JSStr → Bool
  | [], needle => needle.isEmpty
  | c :: t, needle => beginsWith (c :: t) needle || containsSub t needle

/-- The specification-side substring relation: `needle` occurs
contiguously inside `hay`. -/
def SubstringOf (needle hay : JSStr) : Prop :=
  ∃ pre post, hay = pre ++ needle ++ post

/-! ### Configuration data model (src/config.ts) -/

/-- The two transport kinds of the config schema. -/
inductive TransportKind where
  | stdio
  | http
  deriving DecidableEq, Repr

/-- `ServerConfig` from src/config.ts.  The field the source calls
`authTokenPrefix` is named `authTokenPfx` here purely because of a
naming restriction in this development; it models the same field. -/
structure ServerConfig where
  name : JSStr
  transport : TransportKind
  command : Option JSStr := none
  args : List JSStr := []
  env : List (JSStr × JSStr) := []
  url : Option JSStr := none
  headers : Option (List (JSStr × JSStr)) := none
  authTokenCommand : Option JSStr := none
  authTokenArgs : Option (List JSStr) := none
  authTokenRefreshArgs : Option (List JSStr) := none
  authTokenHeader : Option JSStr := none
  authTokenPfx : Option JSStr := none
  authTokenTtlSeconds : Option Int := none
  deriving DecidableEq, Repr

/-! ### Pure helpers of McpClientPool (src/mcp-client.ts, lines 71-78, 252-266) -/

/-- Source lines 71-73.  `Boolean(config.authTokenCommand)` is false for
`undefined` and for the empty string. -/
def usesAuthTokenCommand (config : ServerConfig) : Bool :=
  decide (config.transport = TransportKind.http) &&
    (match config.authTokenCommand with
     | some c => !c.isEmpty
     | none => false)

/-- Source lines 75-78: `Math.max(1, ttlSeconds ?? 2700) * 1000`. -/
def getTokenTtlMs (config : ServerConfig) : Int :=
  max 1 (config.authTokenTtlSeconds.getD 2700) * 1000

/-- Source lines 252-255.  The argument is `String(err)`; matching is
case-sensitive here. -/
def isConnectionError (msg : JSStr) : Bool :=
  containsSub msg (jsS ("closed")) || containsSub msg (jsS ("ECONNREFUSED")) ||
    containsSub msg (jsS ("EPIPE"))

/-- Source lines 257-266.  The argument is `String(err)`, lowercased
before the substring tests. -/
def isAuthError (msg : JSStr) : Bool :=
  let m := msg.map Char.toLower
  containsSub m (jsS ("invalid_token")) || containsSub m (jsS ("unauthorized")) ||
    containsSub m (jsS ("401")) || containsSub m (jsS ("authentication")) ||
    containsSub m (jsS ("access token"))

/-! ### Model of the JSON.parse builtin

`JSON.parse` is an external JavaScript builtin, not part of the
repository; this recursive-descent parser models the fragment of its
behaviour the client can observe: whether a text parses, and the
object fields of the result.  Numeric values are not retained (the
client never reads them).  Duplicate object keys resolve to the last
occurrence, as in JavaScript. -/

/-- Parsed JSON values. -/
inductive JsonVal where
  | jnull
  | jbool (b : Bool)
  | jnum
  | jstr (s : JSStr)
  | jarr (elems : List JsonVal)
  | jobj (fields : List (JSStr × JsonVal))

/-- JSON insignificant whitespace. -/
def isJsonWs (c : Char) : Bool :=
  [' ', '\t', '\n', '\r'].contains c

/-- Skip insignificant whitespace. -/
def skipWs (cs : List Char) : List Char := cs.dropWhile isJsonWs

/-- Value of a hexadecimal digit. -/
def hexDigitVal (c : Char) : Option Nat :=
  if c.isDigit then some (c.toNat - 48)
  else if 'a' ≤ c && c ≤ 'f' then some (c.toNat - 87)
  else if 'A' ≤ c && c ≤ 'F' then some (c.toNat - 55)
  else none

/-- Single-character escapes inside JSON strings (backspace is
code point 8, form feed code point 12). -/
def unescapeChar : Char → Option Char
  | 'n' => some '\n'
  | 't' => some '\t'
  | 'r' => some '\r'
  | 'b' => some (Char.ofNat 8)
  | 'f' => some (Char.ofNat 12)
  | '"' => some '"'
  | '\\' => some '\\'
  | '/' => some '/'
  | _ => none

/-- Parse the remainder of a JSON string literal (the opening quote is
already consumed); returns the decoded text and the rest of the input. -/
def parseStrRest : List Char → Option (JSStr × List Char)
  | [] => none
  | '"' :: rest => some ([], rest)
  | '\\' :: esc =>
    match esc with
    | 'u' :: h1 :: h2 :: h3 :: h4 :: rest =>
      match hexDigitVal h1, hexDigitVal h2, hexDigitVal h3, hexDigitVal h4 with
      | some a, some b, some c, some d =>
        match parseStrRest rest with
        | some (s, r) => some (Char.ofNat (a * 4096 + b * 256 + c * 16 + d) :: s, r)
        | none => none
      | _, _, _, _ => none
    | c :: rest =>
      match unescapeChar c with
      | some u =>
        match parseStrRest rest with
        | some (s, r) => some (u :: s, r)
        | none => none
      | none => none
    | [] => none
  | c :: rest =>
    match parseStrRest rest with
    | some (s, r) => some (c :: s, r)
    | none => none

/-- Parse the digits/fraction/exponent tail of a JSON number, after the
optional leading minus sign. -/
def parseNumTail (cs : List Char) : Option (List Char) :=
  let ds := cs.takeWhile Char.isDigit
  let r1 := cs.dropWhile Char.isDigit
  if ds.isEmpty then none
  else
    let afterFrac :=
      match r1 with
      | '.' :: r2 =>
        let fs := r2.takeWhile Char.isDigit
        if fs.isEmpty then none else some (r2.dropWhile Char.isDigit)
      | _ => some r1
    match afterFrac with
    | none => none
    | some r3 =>
      match r3 with
      | 'e' :: r4 => parseExpTail r4
      | 'E' :: r4 => parseExpTail r4
      | _ => some r3
where
  /-- Parse an exponent tail after `e`/`E`. -/
  parseExpTail (cs : List Char) : Option (List Char) :=
    let cs' := match cs with
      | '+' :: r => r
      | '-' :: r => r
      | _ => cs
    let es := cs'.takeWhile Char.isDigit
    if es.isEmpty then none else some (cs'.dropWhile Char.isDigit)

mutual

/-- Parse one JSON value.  `fuel` bounds the recursion depth; the
top-level entry point supplies more fuel than any input can consume. -/
def parseVal : Nat → List Char → Option (JsonVal × List Char)
  | 0, _ => none
  | Nat.succ fuel, cs =>
    match skipWs cs with
    | 'n' :: 'u' :: 'l' :: 'l' :: r => some (JsonVal.jnull, r)
    | 't' :: 'r' :: 'u' :: 'e' :: r => some (JsonVal.jbool true, r)
    | 'f' :: 'a' :: 'l' :: 's' :: 'e' :: r => some (JsonVal.jbool false, r)
    | '"' :: r =>
      match parseStrRest r with
      | some (s, r') => some (JsonVal.jstr s, r')
      | none => none
    | '[' :: r => parseElems fuel true r
    | '\x7b' :: r => parseMembers fuel true r
    | '-' :: r =>
      match parseNumTail r with
      | some r' => some (JsonVal.jnum, r')
      | none => none
    | c :: r =>
      if c.isDigit then
        match parseNumTail (c :: r) with
        | some r' => some (JsonVal.jnum, r')
        | none => none
      else none
    | [] => none

/-- Parse array elements after `[` (or after a separating comma, in
which case `allowEnd` is false and a closing bracket may not come
immediately). -/
def parseElems : Nat → Bool → List Char → Option (JsonVal × List Char)
  | 0, _, _ => none
  | Nat.succ fuel, allowEnd, cs =>
    match skipWs cs with
    | ']' :: r => if allowEnd then some (JsonVal.jarr [], r) else none
    | cs' =>
      match parseVal fuel cs' with
      | none => none
      | some (v, r1) =>
        match skipWs r1 with
        | ',' :: r2 =>
          match parseElems fuel false r2 with
          | some (JsonVal.jarr vs, r3) => some (JsonVal.jarr (v :: vs), r3)
          | _ => none
        | ']' :: r2 => some (JsonVal.jarr [v], r2)
        | _ => none

/-- Parse object members after an opening brace (or after a separating
comma, in which case `allowEnd` is false). -/
def parseMembers : Nat → Bool → List Char → Option (JsonVal × List Char)
  | 0, _, _ => none
  | Nat.succ fuel, allowEnd, cs =>
    match skipWs cs with
    | '\x7d' :: r => if allowEnd then some (JsonVal.jobj [], r) else none
    | '"' :: r =>
      match parseStrRest r with
      | none => none
      | some (key, r1) =>
        match skipWs r1 with
        | ':' :: r2 =>
          match parseVal fuel r2 with
          | none => none
          | some (v, r3) =>
            match skipWs r3 with
            | ',' :: r4 =>
              match parseMembers fuel false r4 with
              | some (JsonVal.jobj fs, r5) => some (JsonVal.jobj ((key, v) :: fs), r5)
              | _ => none
            | '\x7d' :: r4 => some (JsonVal.jobj [(key, v)], r4)
            | _ => none
        | _ => none
    | _ => none

end

/-- Model of `JSON.parse`: the whole text must be one JSON value with
only whitespace around it; anything else throws (here: `none`). -/
def jsonParse (cs : JSStr) : Option JsonVal :=
  match parseVal (cs.length + 2) cs with
  | some (v, rest) => if (skipWs rest).isEmpty then some v else none
  | none => none

/-- JavaScript property access `parsed.field` on a parse result:
defined only on objects, with the last duplicate key winning. -/
def jget (v : JsonVal) (key : JSStr) : Option JsonVal :=
  match v with
  | JsonVal.jobj fields => lookupK key fields.reverse
  | _ => none

/-! ### Token extraction (src/mcp-client.ts, lines 117-183) -/

/-- One conjunct `typeof parsed.f === "string" && parsed.f` of the
source's truthiness chain: yields the field value only when it is a
string and (being used as a boolean) non-empty. -/
def truthyStr : Option JsonVal → Option JSStr
  | some (JsonVal.jstr s) => if s.isEmpty then none else some s
  | _ => none

/-- The `fromJson` expression of `extractToken` (source lines 161-164
and 173-176): a JavaScript `||` chain over the three candidate fields,
so an empty-string field falls through to the next candidate. -/
def firstTokenField (parsed : JsonVal) : Option JSStr :=
  match truthyStr (jget parsed (jsS ("access_token"))) with
  | some s => some s
  | none =>
    match truthyStr (jget parsed (jsS ("token"))) with
    | some s => some s
    | none => truthyStr (jget parsed (jsS ("bearer")))

/-- `extractToken` (source lines 152-183): split into trimmed non-empty
lines, scan them in reverse for a JSON object with a usable field, then
try the whole raw text as JSON, then fall back to the last non-empty
line; `lines[lines.length - 1] ?? null` is `none` when no line exists. -/
def extractToken (raw : JSStr) : Option JSStr :=
  let lines := ((splitLinesC raw).map trimC).filter (fun l => !l.isEmpty)
  match lines.reverse.findSome? (fun candidate => (jsonParse candidate).bind firstTokenField) with
  | some t => some t
  | none =>
    match (jsonParse raw).bind firstTokenField with
    | some t => some t
    | none => lines.getLast?

/-- Outcome of the `execFile` callback for the refresh command: either
the process failed (timeout, non-zero exit, overflow) with captured
error-stream text and an error message, or it produced standard output. -/
inductive ExecResult where
  | failed (stderrText : JSStr) (message : JSStr)
  | succeeded (stdout : JSStr)
  deriving DecidableEq

/-- The three rejection shapes of `runTokenCommand`. -/
inductive TokenErr where
  | cmdFailed (msg : JSStr)
  | emptyOutput
  | unusableToken
  deriving DecidableEq, Repr

/-- `[stderr?.toString(), err.message].filter(Boolean).join(" | ")`
(source line 129). -/
def joinFailParts (stderrText message : JSStr) : JSStr :=
  if stderrText.isEmpty then message
  else if message.isEmpty then stderrText
  else stderrText ++ jsS (" | ") ++ message

/-- `runTokenCommand` (source lines 117-150), as a function of the
child-process outcome.  `if (!token)` rejects both `null` and the empty
string. -/
def runTokenCommand (command : JSStr) (args : List JSStr) (res : ExecResult) :
    Except TokenErr JSStr :=
  match res with
  | ExecResult.failed stderrText message =>
    Except.error (TokenErr.cmdFailed (joinFailParts stderrText message))
  | ExecResult.succeeded stdout =>
    let raw := trimC stdout
    if raw.isEmpty then Except.error TokenErr.emptyOutput
    else
      match extractToken raw with
      | none => Except.error TokenErr.unusableToken
      | some token =>
        if token.isEmpty then Except.error TokenErr.unusableToken else Except.ok token

/-! ### Token cache and credential fetch (src/mcp-client.ts, lines 95-115) -/

/-- Cache entry: token text and fetch timestamp (ms). -/
structure TokenCacheEntry where
  token : JSStr
  fetchedAtMs : Int
  deriving DecidableEq, Repr

/-- Result of a `getAuthToken` call: the token or failure, the updated
cache, whether the external command was invoked, and the argument list
used for the invocation (empty when not invoked). -/
structure AuthFetchOut where
  result : Except TokenErr JSStr
  tokenCache : List (JSStr × TokenCacheEntry)
  invoked : Bool
  argsUsed : List JSStr

/-- The cache-miss path of `getAuthToken` (source lines 103-114): build
the argument list, run the command, store the token on success. -/
def getAuthTokenRun (tokenCache : List (JSStr × TokenCacheEntry)) (now : Int)
    (config : ServerConfig) (forceRefresh : Bool) (exec : ExecResult) : AuthFetchOut :=
  let args := config.authTokenArgs.getD [] ++
    (if forceRefresh then config.authTokenRefreshArgs.getD [] else [])
  match runTokenCommand (config.authTokenCommand.getD []) args exec with
  | Except.error e => ⟨Except.error e, tokenCache, true, args⟩
  | Except.ok token =>
    ⟨Except.ok token, setKey config.name ⟨token, now⟩ tokenCache, true, args⟩

/-- `getAuthToken` (source lines 95-115). -/
def getAuthToken (tokenCache : List (JSStr × TokenCacheEntry)) (now : Int)
    (config : ServerConfig) (forceRefresh : Bool) (exec : ExecResult) : AuthFetchOut :=
  match lookupK config.name tokenCache with
  | some cache =>
    if forceRefresh = false ∧ now - cache.fetchedAtMs < getTokenTtlMs config then
      ⟨Except.ok cache.token, tokenCache, false, []⟩
    else getAuthTokenRun tokenCache now config forceRefresh exec
  | none => getAuthTokenRun tokenCache now config forceRefresh exec

/-! ### HTTP header construction (src/mcp-client.ts, lines 80-93) -/

/-- `config.authTokenHeader || "Authorization"` (source line 88): the
JavaScript `||` falls back on `undefined` and on the empty string. -/
def authHeaderName (config : ServerConfig) : JSStr :=
  match config.authTokenHeader with
  | some h => if h.isEmpty then jsS ("Authorization") else h
  | none => jsS ("Authorization")

/-- Source lines 89-90: default prefix `Bearer` (`??` catches only
`undefined`); a configured empty prefix is falsy, so the bare token is
used. -/
def authHeaderValue (config : ServerConfig) (token : JSStr) : JSStr :=
  let pfx := config.authTokenPfx.getD (jsS ("Bearer"))
  if pfx.isEmpty then token else pfx ++ jsS (" ") ++ token

/-- Result of `buildHttpHeaders`: the headers (or `none` standing for
`undefined`), the updated token cache, and whether the refresh command
was invoked. -/
structure HeadersOut where
  result : Except TokenErr (Option (List (JSStr × JSStr)))
  tokenCache : List (JSStr × TokenCacheEntry)
  invoked : Bool

/-- `buildHttpHeaders` (source lines 80-93). -/
def buildHttpHeaders (tokenCache : List (JSStr × TokenCacheEntry)) (now : Int)
    (config : ServerConfig) (forceRefreshToken : Bool) (exec : ExecResult) : HeadersOut :=
  let headers := config.headers.getD []
  if usesAuthTokenCommand config = false then
    ⟨Except.ok (if headers.isEmpty then none else some headers), tokenCache, false⟩
  else
    let fetched := getAuthToken tokenCache now config forceRefreshToken exec
    match fetched.result with
    | Except.error e => ⟨Except.error e, fetched.tokenCache, fetched.invoked⟩
    | Except.ok token =>
      ⟨Except.ok (some (setKey (authHeaderName config) (authHeaderValue config token) headers)),
        fetched.tokenCache, fetched.invoked⟩

/-! ### Session registry and world model (src/mcp-client.ts, lines 7-25) -/

/-- Observable events of the connection manager, used to state the
retry/recovery protocol. -/
inductive Event where
  | builtTransport (forceRefreshToken : Bool)
  | sessionConnect
  | closedTransport
  | reconnected (forceRefreshToken : Bool)
  | opAttempt
  deriving DecidableEq, Repr

/-- Model of a constructed transport: its kind, the request headers it
was built with (http only), whether error/close hooks were installed,
and whether its future `close()` call would throw (oracle data fixed at
construction). -/
structure TransportModel where
  kind : TransportKind
  requestHeaders : Option (List (JSStr × JSStr)) := none
  hooked : Bool := false
  closeThrows : Option JSStr := none
  deriving DecidableEq, Repr

/-- `ClientEntry` (source lines 7-12): config, transport and the
`connected` health flag.  The protocol session object itself carries no
state the pool reads, so it is not represented. -/
structure ClientEntry where
  config : ServerConfig
  transport : TransportModel
  connected : Bool
  deriving DecidableEq, Repr

/-- The pool's two maps (source lines 24-25). -/
structure PoolState where
  clients : List (JSStr × ClientEntry)
  tokenCache : List (JSStr × TokenCacheEntry)

/-- Outcome of one `client.listTools()` / `client.callTool()` call on
the session: an abstract successful result or a thrown error rendered
as `String(err)`. -/
inductive OpOutcome where
  | ok (r : Nat)
  | err (msg : JSStr)
  deriving DecidableEq, Repr

/-- Oracle streams for the external collaborators, consumed in call
order, plus the current clock.  An exhausted stream defaults to
success. -/
structure World where
  now : Int := 0
  execResults : List ExecResult := []
  connectResults : List (Option JSStr) := []
  opResults : List OpOutcome := []
  closeBehaviors : List (Option JSStr) := []

/-- Consume the next `client.connect` outcome (`none` = established). -/
def takeConnect (w : World) : Option JSStr × World :=
  (w.connectResults.headD none, { w with connectResults := w.connectResults.tail })

/-- Consume the next session-operation outcome. -/
def takeOp (w : World) : OpOutcome × World :=
  (w.opResults.headD (OpOutcome.ok 0), { w with opResults := w.opResults.tail })

/-- Consume the next transport close behaviour (fixed at transport
construction time). -/
def takeCloseB (w : World) : Option JSStr × World :=
  (w.closeBehaviors.headD none, { w with closeBehaviors := w.closeBehaviors.tail })

/-- Peek the next child-process outcome without consuming it. -/
def peekExec (w : World) : ExecResult :=
  w.execResults.headD (ExecResult.succeeded (jsS ("token")))

/-- Drop the consumed child-process outcome. -/
def dropExec (w : World) : World := { w with execResults := w.execResults.tail }

/-- Rendering of a thrown `TokenErr` as `String(err)`. -/
def errText (m : JSStr) : JSStr := jsS ("Error: ") ++ m

/-- The message carried by each `TokenErr` (source lines 130, 136, 142). -/
def tokenErrMessage : TokenErr → JSStr
  | TokenErr.cmdFailed m => jsS ("token command failed: ") ++ m
  | TokenErr.emptyOutput => jsS ("token command returned empty output")
  | TokenErr.unusableToken => jsS ("token command did not return a usable token")

/-! ### Transport factory (src/mcp-client.ts, lines 56-69) -/

/-- Result of `createTransport`: the transport or a propagated header
failure, with the updated pool state (token cache) and world. -/
structure TransportOut where
  result : Except JSStr TransportModel
  st : PoolState
  w : World

/-- `createTransport` (source lines 56-69): http builds headers (and may
fetch a credential, consuming the exec oracle only when a fetch really
runs); stdio spawns the subprocess and never fetches. -/
def createTransport (st : PoolState) (w : World) (config : ServerConfig)
    (forceRefreshToken : Bool) : TransportOut :=
  match config.transport with
  | TransportKind.http =>
    let h := buildHttpHeaders st.tokenCache w.now config forceRefreshToken (peekExec w)
    let w1 := if h.invoked then dropExec w else w
    match h.result with
    | Except.error e =>
      ⟨Except.error (errText (tokenErrMessage e)), { st with tokenCache := h.tokenCache }, w1⟩
    | Except.ok hdrs =>
      match takeCloseB w1 with
      | (cb, w2) =>
        ⟨Except.ok ⟨TransportKind.http, hdrs, false, cb⟩,
          { st with tokenCache := h.tokenCache }, w2⟩
  | TransportKind.stdio =>
    match takeCloseB w with
    | (cb, w1) => ⟨Except.ok ⟨TransportKind.stdio, none, false, cb⟩, st, w1⟩

/-! ### Connection manager (src/mcp-client.ts, lines 27-54, 234-250) -/

/-- Result of a `connect` call: `none` on success, `some msg` for a
thrown error, plus the updated state, world and the event trace. -/
structure ConnectOut where
  result : Option JSStr
  st : PoolState
  w : World
  trace : List Event

/-- The success tail of `connect` (source lines 47-53): install the
error/close hooks on subprocess transports and write the registry
entry. -/
def connectFinish (st : PoolState) (w : World) (config : ServerConfig)
    (transport : TransportModel) (trace : List Event) : ConnectOut :=
  let transport' :=
    if transport.kind = TransportKind.stdio then { transport with hooked := true } else transport
  ⟨none, ⟨setKey config.name ⟨config, transport', true⟩ st.clients, st.tokenCache⟩, w, trace⟩

/-- `connect` (source lines 27-54).  On a session-establishment failure
that is auth-classified, for an auth-capable server, outside a forced
attempt: close the fresh transport (errors swallowed; the close-throw
oracle is part of the transport and is never consulted), rebuild with
`forceRefreshToken: true`, and try to establish once more. -/
def connect (st : PoolState) (w : World) (config : ServerConfig)
    (forceRefreshToken : Bool) : ConnectOut :=
  let t1 := createTransport st w config forceRefreshToken
  match t1.result with
  | Except.error e => ⟨some e, t1.st, t1.w, [Event.builtTransport forceRefreshToken]⟩
  | Except.ok transport =>
    match takeConnect t1.w with
    | (none, w1) =>
      connectFinish t1.st w1 config transport
        [Event.builtTransport forceRefreshToken, Event.sessionConnect]
    | (some err, w1) =>
      if usesAuthTokenCommand config && isAuthError err && !forceRefreshToken then
        let t2 := createTransport t1.st w1 config true
        match t2.result with
        | Except.error e2 =>
          ⟨some e2, t2.st, t2.w,
            [Event.builtTransport forceRefreshToken, Event.sessionConnect,
             Event.closedTransport, Event.builtTransport true]⟩
        | Except.ok transport2 =>
          match takeConnect t2.w with
          | (some err2, w2) =>
            ⟨some err2, t2.st, w2,
              [Event.builtTransport forceRefreshToken, Event.sessionConnect,
               Event.closedTransport, Event.builtTransport true, Event.sessionConnect]⟩
          | (none, w2) =>
            connectFinish t2.st w2 config transport2
              [Event.builtTransport forceRefreshToken, Event.sessionConnect,
               Event.closedTransport, Event.builtTransport true, Event.sessionConnect]
      else ⟨some err, t1.st, w1, [Event.builtTransport forceRefreshToken, Event.sessionConnect]⟩

/-- `reconnect` (source lines 234-245): no-op when the entry is absent;
otherwise best-effort close of the old transport (errors ignored) and a
fresh `connect` with the stored config. -/
def reconnect (st : PoolState) (w : World) (serverName : JSStr)
    (forceRefreshToken : Bool) : ConnectOut :=
  match lookupK serverName st.clients with
  | none => ⟨none, st, w, []⟩
  | some entry =>
    let out := connect st w entry.config forceRefreshToken
    ⟨out.result, out.st, out.w, Event.closedTransport :: out.trace⟩

/-- `markDisconnected` (source lines 247-250). -/
def markDisconnected (st : PoolState) (serverName : JSStr) : PoolState :=
  match lookupK serverName st.clients with
  | some entry =>
    { st with clients := setKey serverName { entry with connected := false } st.clients }
  | none => st

/-! ### Tool operations (src/mcp-client.ts, lines 185-232) -/

/-- Result of `listTools` / `callTool` with state, world and trace. -/
structure OpOut where
  result : OpOutcome
  st : PoolState
  w : World
  trace : List Event

/-- Text of the unknown-server error, as `String(err)`. -/
def unknownServerMsg (serverName : JSStr) : JSStr :=
  jsS ("Error: Unknown server: ") ++ serverName

/-- `listTools` (source lines 185-209).  The lookup after a successful
reconnect models the source's non-null assertion
`this.clients.get(serverName)!`; its `none` arm is the TypeError a
failed assertion would surface and is proved unreachable. -/
def listTools (st : PoolState) (w : World) (serverName : JSStr) : OpOut :=
  match lookupK serverName st.clients with
  | none => ⟨OpOutcome.err (unknownServerMsg serverName), st, w, []⟩
  | some entry =>
    match takeOp w with
    | (OpOutcome.ok r, w1) => ⟨OpOutcome.ok r, st, w1, [Event.opAttempt]⟩
    | (OpOutcome.err e, w1) =>
      if usesAuthTokenCommand entry.config && isAuthError e then
        let rc := reconnect st w1 serverName true
        match rc.result with
        | some e2 =>
          ⟨OpOutcome.err e2, rc.st, rc.w,
            Event.opAttempt :: Event.reconnected true :: rc.trace⟩
        | none =>
          match lookupK serverName rc.st.clients with
          | none =>
            ⟨OpOutcome.err (jsS ("Error: TypeError")), rc.st, rc.w,
              Event.opAttempt :: Event.reconnected true :: rc.trace⟩
          | some _ =>
            match takeOp rc.w with
            | (a2, w2) =>
              ⟨a2, rc.st, w2,
                Event.opAttempt :: Event.reconnected true :: (rc.trace ++ [Event.opAttempt])⟩
      else if !entry.connected || isConnectionError e then
        let rc := reconnect st w1 serverName false
        match rc.result with
        | some e2 =>
          ⟨OpOutcome.err e2, rc.st, rc.w,
            Event.opAttempt :: Event.reconnected false :: rc.trace⟩
        | none =>
          match lookupK serverName rc.st.clients with
          | none =>
            ⟨OpOutcome.err (jsS ("Error: TypeError")), rc.st, rc.w,
              Event.opAttempt :: Event.reconnected false :: rc.trace⟩
          | some _ =>
            match takeOp rc.w with
            | (a2, w2) =>
              ⟨a2, rc.st, w2,
                Event.opAttempt :: Event.reconnected false :: (rc.trace ++ [Event.opAttempt])⟩
      else ⟨OpOutcome.err e, st, w1, [Event.opAttempt]⟩

/-- `callTool` (source lines 211-232): identical recovery protocol; the
tool name and serialized arguments are passed through to the session
and do not influence the pool's control flow. -/
def callTool (st : PoolState) (w : World) (serverName : JSStr)
    (toolName : JSStr) (argsJson : JSStr) : OpOut :=
  match lookupK serverName st.clients with
  | none => ⟨OpOutcome.err (unknownServerMsg serverName), st, w, []⟩
  | some entry =>
    match takeOp w with
    | (OpOutcome.ok r, w1) => ⟨OpOutcome.ok r, st, w1, [Event.opAttempt]⟩
    | (OpOutcome.err e, w1) =>
      if usesAuthTokenCommand entry.config && isAuthError e then
        let rc := reconnect st w1 serverName true
        match rc.result with
        | some e2 =>
          ⟨OpOutcome.err e2, rc.st, rc.w,
            Event.opAttempt :: Event.reconnected true :: rc.trace⟩
        | none =>
          match lookupK serverName rc.st.clients with
          | none =>
            ⟨OpOutcome.err (jsS ("Error: TypeError")), rc.st, rc.w,
              Event.opAttempt :: Event.reconnected true :: rc.trace⟩
          | some _ =>
            match takeOp rc.w with
            | (a2, w2) =>
              ⟨a2, rc.st, w2,
                Event.opAttempt :: Event.reconnected true :: (rc.trace ++ [Event.opAttempt])⟩
      else if !entry.connected || isConnectionError e then
        let rc := reconnect st w1 serverName false
        match rc.result with
        | some e2 =>
          ⟨OpOutcome.err e2, rc.st, rc.w,
            Event.opAttempt :: Event.reconnected false :: rc.trace⟩
        | none =>
          match lookupK serverName rc.st.clients with
          | none =>
            ⟨OpOutcome.err (jsS ("Error: TypeError")), rc.st, rc.w,
              Event.opAttempt :: Event.reconnected false :: rc.trace⟩
          | some _ =>
            match takeOp rc.w with
            | (a2, w2) =>
              ⟨a2, rc.st, w2,
                Event.opAttempt :: Event.reconnected false :: (rc.trace ++ [Event.opAttempt])⟩
      else ⟨OpOutcome.err e, st, w1, [Event.opAttempt]⟩

/-! ### Shutdown and status (src/mcp-client.ts, lines 268-291) -/

/-- `close` (source lines 273-284): absent entry is a no-op; otherwise
the transport's close outcome is swallowed by the try/catch and the
entry is removed.  The `Except` result type records that the function
could in principle propagate a throw; the theorems show it never does. -/
def close (st : PoolState) (serverName : JSStr) : Except JSStr PoolState :=
  match lookupK serverName st.clients with
  | none => Except.ok st
  | some entry =>
    let _ignored := entry.transport.closeThrows
    Except.ok { st with clients := eraseKey serverName st.clients }

/-- The iteration of `closeAll` over a snapshot of the keys.  A `Map`
iterated while only already-visited keys are deleted visits exactly the
initial key list. -/
def closeAllGo : PoolState → List JSStr → Except JSStr PoolState
  | st, [] => Except.ok st
  | st, n :: rest =>
    match close st n with
    | Except.error e => Except.error e
    | Except.ok st' => closeAllGo st' rest

/-- `closeAll` (source lines 286-290). -/
def closeAll (st : PoolState) : Except JSStr PoolState :=
  closeAllGo st (st.clients.map (fun p => p.1))

/-- `getStatus` (source lines 268-271): the `connected` field of the
returned record. -/
def getStatus (st : PoolState) (serverName : JSStr) : Bool :=
  match lookupK serverName st.clients with
  | some entry => entry.connected
  | none => false

/-- Whether the entry's transport had error/close hooks installed. -/
def hookInstalled (st : PoolState) (serverName : JSStr) : Bool :=
  match lookupK serverName st.clients with
  | some entry => entry.transport.hooked
  | none => false

/-! ### Multi-step executions -/

/-- One externally triggered action on the pool: the public operations,
or a subprocess transport firing its error/close hook. -/
inductive Cmd where
  | connectCmd (config : ServerConfig)
  | listToolsCmd (serverName : JSStr)
  | callToolCmd (serverName : JSStr) (toolName : JSStr) (argsJson : JSStr)
  | closeCmd (serverName : JSStr)
  | closeAllCmd
  | hookFiredCmd (serverName : JSStr)

/-- Apply one action.  Public `connect` calls pass no options, so
`forceRefreshToken` starts false.  A hook firing for an entry whose
transport has hooks installed runs the handler `markDisconnected`. -/
def step (st : PoolState) (w : World) : Cmd → PoolState × World × List Event
  | Cmd.connectCmd config =>
    let o := connect st w config false
    (o.st, o.w, o.trace)
  | Cmd.listToolsCmd n =>
    let o := listTools st w n
    (o.st, o.w, o.trace)
  | Cmd.callToolCmd n tn aj =>
    let o := callTool st w n tn aj
    (o.st, o.w, o.trace)
  | Cmd.closeCmd n =>
    match close st n with
    | Except.ok st' => (st', w, [])
    | Except.error _ => (st, w, [])
  | Cmd.closeAllCmd =>
    match closeAll st with
    | Except.ok st' => (st', w, [])
    | Except.error _ => (st, w, [])
  | Cmd.hookFiredCmd n =>
    (if hookInstalled st n then markDisconnected st n else st, w, [])

/-- Run a sequence of actions, accumulating the event trace. -/
def run (st : PoolState) (w : World) : List Cmd → PoolState × List Event
  | [] => (st, [])
  | c :: cs =>
    match step st w c with
    | (st', w', tr) =>
      match run st' w' cs with
      | (stf, trs) => (stf, tr ++ trs)

/-! ### Trace observations and specification-side definitions -/

/-- The forced-refresh flags of the recovery attempts in a trace. -/
def recoveryFlags (trace : List Event) : List Bool :=
  trace.filterMap (fun e =>
    match e with
    | Event.reconnected b => some b
    | _ => none)

/-- Number of session tool-operation attempts in a trace. -/
def opAttemptCount (trace : List Event) : Nat :=
  (trace.filter (fun e =>
    match e with
    | Event.opAttempt => true
    | _ => false)).length

/-- Number of session-establishment attempts in a trace. -/
def sessionConnectCount (trace : List Event) : Nat :=
  (trace.filter (fun e =>
    match e with
    | Event.sessionConnect => true
    | _ => false)).length

/-- Events that witness a forced token refresh: building a transport
with forced refresh, or a recovery reconnect with forced refresh. -/
def forcedRefreshEvents (trace : List Event) : List Event :=
  trace.filter (fun e =>
    match e with
    | Event.builtTransport b => b
    | Event.reconnected b => b
    | _ => false)

/-- Registry well-formedness: every entry is stored under its config's
name.  Every state reachable through `connect` has this shape. -/
def WellKeyed (st : PoolState) : Prop :=
  ∀ p ∈ st.clients, p.2.config.name = p.1

/-- The behaviour of the retried operation after a recovery reconnect,
shared by the auth and connection recovery branches of `listTools`:
a reconnect failure propagates with no retried attempt, a reconnect
success is followed by exactly one retried attempt whose outcome is
final. -/
def RetryBehavior (st : PoolState) (w : World) (serverName : JSStr) (force : Bool) : Prop :=
  let w1 := (takeOp w).2
  let rc := reconnect st w1 serverName force
  let o := listTools st w serverName
  (∀ e2, rc.result = some e2 →
    o.result = OpOutcome.err e2 ∧ o.st = rc.st ∧ opAttemptCount o.trace = 1) ∧
  (rc.result = none →
    o.result = (takeOp rc.w).1 ∧ o.st = rc.st ∧ opAttemptCount o.trace = 2)

/-- The specification's reading of the token-field selection, amended:
the first field among `access_token`, `token`, `bearer` whose value is
a non-empty string. -/
def specTokenField (parsed : JsonVal) : Option JSStr :=
  [jsS ("access_token"), jsS ("token"), jsS ("bearer")].findSome? (fun k =>
    match jget parsed k with
    | some (JsonVal.jstr s) => if s.isEmpty then none else some s
    | _ => none)

/-- The specification's reading of token extraction (amended as in
`specTokenField`): reverse-scan the trimmed non-empty lines for a JSON
object with a usable field, then the whole raw output, then the last
non-empty line. -/
def specExtractToken (raw : JSStr) : Option JSStr :=
  let lines := ((splitLinesC raw).map trimC).filter (fun l => !l.isEmpty)
  match lines.reverse.findSome? (fun candidate => (jsonParse candidate).bind specTokenField) with
  | some t => some t
  | none =>
    match (jsonParse raw).bind specTokenField with
    | some t => some t
    | none => lines.getLast?

/-- The claim's original (unamended) reading of the field selection:
the first field among the three whose value is a string, empty or not. -/
def claimTokenField (parsed : JsonVal) : Option JSStr :=
  [jsS ("access_token"), jsS ("token"), jsS ("bearer")].findSome? (fun k =>
    match jget parsed k with
    | some (JsonVal.jstr s) => some s
    | _ => none)

/-- A pool in which no registered server has credential-refresh
configured (no refresh command, or a non-http transport). -/
def SafePool (st : PoolState) : Prop :=
  ∀ p ∈ st.clients, usesAuthTokenCommand p.2.config = false

/-! ### Concrete instances used by witnesses and counterexamples -/

/-- A subprocess server configuration used in concrete scenarios. -/
def exCfgA : ServerConfig :=
  { name := jsS ("alpha"), transport := TransportKind.stdio, command := some (jsS ("run-a")) }

/-- A second subprocess server configuration. -/
def exCfgB : ServerConfig :=
  { name := jsS ("beta"), transport := TransportKind.stdio, command := some (jsS ("run-b")) }

/-- An http server configuration with credential refresh configured. -/
def exCfgHttp : ServerConfig :=
  { name := jsS ("web"), transport := TransportKind.http, url := some (jsS ("http://x")),
    authTokenCommand := some (jsS ("get-token")) }

/-- A pool holding two connected subprocess servers, the first of whose
transports throws from `close()`. -/
def exPoolTwo : PoolState :=
  ⟨[(jsS ("alpha"),
      ⟨exCfgA, ⟨TransportKind.stdio, none, true, some (jsS ("close failed"))⟩, true⟩),
    (jsS ("beta"),
      ⟨exCfgB, ⟨TransportKind.stdio, none, true, none⟩, true⟩)], []⟩

/-! ## Supporting lemmas -/

theorem lookupK_setKey_self {α : Type} (k : JSStr) (v : α) (m : List (JSStr × α)) :
    lookupK k (setKey k v m) = some v := by
  induction m with
  | nil => simp [setKey, lookupK]
  | cons p rest ih =>
    by_cases h : p.1 = k
    · simp [setKey, lookupK, h]
    · simp [setKey, lookupK, h, ih]

theorem mem_setKey {α : Type} {k : JSStr} {v : α} {m : List (JSStr × α)}
    {p : JSStr × α} (hp : p ∈ setKey k v m) : p = (k, v) ∨ p ∈ m := by
  induction m with
  | nil => simpa [setKey] using hp
  | cons q rest ih =>
    by_cases h : q.1 = k
    · rw [setKey, if_pos h] at hp
      rcases List.mem_cons.mp hp with h1 | h2
      · exact Or.inl h1
      · exact Or.inr (List.mem_cons_of_mem _ h2)
    · rw [setKey, if_neg h] at hp
      rcases List.mem_cons.mp hp with h1 | h2
      · exact Or.inr (h1 ▸ List.mem_cons_self _ _)
      · rcases ih h2 with h3 | h4
        · exact Or.inl h3
        · exact Or.inr (List.mem_cons_of_mem _ h4)

theorem mem_eraseKey {α : Type} {k : JSStr} {m : List (JSStr × α)}
    {p : JSStr × α} (hp : p ∈ eraseKey k m) : p ∈ m :=
  (List.mem_filter.mp hp).1

theorem lookupK_mem {α : Type} {k : JSStr} {m : List (JSStr × α)} {v : α}
    (h : lookupK k m = some v) : (k, v) ∈ m := by
  induction m with
  | nil => simp [lookupK] at h
  | cons q rest ih =>
    by_cases hq : q.1 = k
    · rw [lookupK, if_pos hq] at h
      cases h
      subst hq
      exact List.mem_cons_self q rest
    · rw [lookupK, if_neg hq] at h
      exact List.mem_cons_of_mem _ (ih h)

theorem lookupK_eq_none {α : Type} {k : JSStr} {m : List (JSStr × α)}
    (h : ∀ p ∈ m, p.1 ≠ k) : lookupK k m = none := by
  induction m with
  | nil => rfl
  | cons q rest ih =>
    rw [lookupK, if_neg (h q (List.mem_cons_self _ _))]
    exact ih (fun p hp => h p (List.mem_cons_of_mem _ hp))

theorem eraseKey_of_absent {α : Type} {k : JSStr} {m : List (JSStr × α)}
    (h : lookupK k m = none) : eraseKey k m = m := by
  induction m with
  | nil => rfl
  | cons q rest ih =>
    by_cases hq : q.1 = k
    · rw [lookupK, if_pos hq] at h
      exact absurd h (by simp)
    · rw [lookupK, if_neg hq] at h
      simp only [eraseKey, List.filter_cons, decide_eq_true_eq]
      rw [if_pos hq]
      exact congrArg _ (ih h)

theorem dropWhile_idem (p : Char → Bool) (l : List Char) :
    (l.dropWhile p).dropWhile p = l.dropWhile p := by
  induction l with
  | nil => rfl
  | cons c t ih =>
    by_cases h : p c = true
    · simp [List.dropWhile_cons, h, ih]
    · simp [List.dropWhile_cons, h]

theorem trimEndC_prefix (x : JSStr) : ∃ s, x = trimEndC x ++ s := by
  refine ⟨(x.reverse.takeWhile isJsWs).reverse, ?_⟩
  unfold trimEndC
  conv_lhs => rw [← List.reverse_reverse x, ← List.takeWhile_append_dropWhile (p := isJsWs) (l := x.reverse)]
  rw [List.reverse_append]

theorem trimEndC_idem (x : JSStr) : trimEndC (trimEndC x) = trimEndC x := by
  unfold trimEndC
  rw [List.reverse_reverse, dropWhile_idem]

theorem trimStartC_trimC (l : JSStr) : trimStartC (trimC l) = trimC l := by
  unfold trimC
  obtain ⟨s, hs⟩ := trimEndC_prefix (trimStartC l)
  cases hte : trimEndC (trimStartC l) with
  | nil => rfl
  | cons c t =>
    have hx : trimStartC (trimStartC l) = trimStartC l := dropWhile_idem isJsWs l
    have hc : isJsWs c = false := by
      by_contra hcc
      have hc' : isJsWs c = true := by
        cases hcv : isJsWs c
        · exact absurd hcv hcc
        · rfl
      rw [hte] at hs
      have : trimStartC (trimStartC l) = (t ++ s).dropWhile isJsWs := by
        conv_lhs => rw [hs]
        simp [trimStartC, List.dropWhile_cons, hc']
      have hlen : (trimStartC l).length ≤ (t ++ s).length := by
        rw [hx] at this
        calc (trimStartC l).length = ((t ++ s).dropWhile isJsWs).length := by rw [this]
          _ ≤ (t ++ s).length := (List.dropWhile_suffix isJsWs).length_le
      rw [hs] at hlen
      simp at hlen
    simp [trimStartC, List.dropWhile_cons, hc]

theorem trimC_idem (l : JSStr) : trimC (trimC l) = trimC l := by
  conv_lhs => rw [trimC, trimStartC_trimC]
  show trimEndC (trimEndC (trimStartC l)) = trimC l
  rw [trimEndC_idem]
  rfl

theorem trimC_eq_nil_of_all {l : JSStr} (h : ∀ c ∈ l, isJsWs c = true) : trimC l = [] := by
  have h1 : trimStartC l = [] := List.dropWhile_eq_nil_iff.mpr h
  rw [trimC, h1]
  rfl

theorem all_of_trimC_eq_nil {l : JSStr} (h : trimC l = []) : ∀ c ∈ l, isJsWs c = true := by
  unfold trimC trimEndC at h
  rw [List.reverse_eq_nil_iff] at h
  have h2 : ∀ c ∈ (trimStartC l).reverse, isJsWs c = true := List.dropWhile_eq_nil_iff.mp h
  have h3 : ∀ c ∈ trimStartC l, isJsWs c = true := fun c hc => h2 c (List.mem_reverse.mpr hc)
  intro c hc
  rw [← List.takeWhile_append_dropWhile (p := isJsWs) (l := l)] at hc
  rcases List.mem_append.mp hc with h4 | h5
  · exact List.mem_takeWhile_imp h4
  · exact h3 c h5

theorem splitLinesC_ne_nil (l : List Char) : splitLinesC l ≠ [] := by
  induction l using splitLinesC.induct <;> simp_all [splitLinesC]

theorem all_ws_of_lines_ws (x : List Char)
    (h : ∀ l ∈ splitLinesC x, ∀ c ∈ l, isJsWs c = true) : ∀ c ∈ x, isJsWs c = true := by
  induction x using splitLinesC.induct with
  | case1 => intro c hc; cases hc
  | case2 rest ih =>
    intro c hc
    rcases List.mem_cons.mp hc with rfl | hc2
    · rfl
    rcases List.mem_cons.mp hc2 with rfl | hc3
    · rfl
    · refine ih ?_ c hc3
      intro l hl
      exact h l (by rw [splitLinesC]; exact List.mem_cons_of_mem _ hl)
  | case3 rest ih =>
    intro c hc
    rcases List.mem_cons.mp hc with rfl | hc2
    · rfl
    · refine ih ?_ c hc2
      intro l hl
      exact h l (by rw [splitLinesC]; exact List.mem_cons_of_mem _ hl)
  | case4 c0 rest hne1 hne2 heq ih =>
    intro c hc
    exfalso
    exact splitLinesC_ne_nil rest heq
  | case5 c0 rest hne1 hne2 l0 ls heq ih =>
    have hsplit : splitLinesC (c0 :: rest) = (c0 :: l0) :: ls := by
      rw [splitLinesC]
      · rw [heq]
      · exact hne1
      · exact hne2
    intro c hc
    rcases List.mem_cons.mp hc with rfl | hcr
    · exact h (c :: l0) (by rw [hsplit]; exact List.mem_cons_self _ _) c (List.mem_cons_self _ _)
    · refine ih ?_ c hcr
      intro l hl
      rw [heq] at hl
      rcases List.mem_cons.mp hl with rfl | hls
      · intro d hd
        exact h (c0 :: l) (by rw [hsplit]; exact List.mem_cons_self _ _) d
          (List.mem_cons_of_mem _ hd)
      · exact h l (by rw [hsplit]; exact List.mem_cons_of_mem _ hls)

theorem nonEmptyLines_ne_nil {raw : JSStr} (htrim : trimC raw = raw) (hne : raw ≠ []) :
    ((splitLinesC raw).map trimC).filter (fun l => !l.isEmpty) ≠ [] := by
  intro hfil
  have hall : ∀ l ∈ (splitLinesC raw).map trimC, l.isEmpty = true := by
    intro l hl
    have := List.filter_eq_nil_iff.mp hfil l hl
    simpa using this
  have hlines : ∀ l ∈ splitLinesC raw, ∀ c ∈ l, isJsWs c = true := by
    intro l hl
    have h1 : (trimC l).isEmpty = true := hall (trimC l) (List.mem_map_of_mem _ hl)
    exact all_of_trimC_eq_nil (List.isEmpty_iff.mp h1)
  have hraw : ∀ c ∈ raw, isJsWs c = true := all_ws_of_lines_ws raw hlines
  have : trimC raw = [] := trimC_eq_nil_of_all hraw
  exact hne (htrim ▸ this)

theorem truthyStr_ne_nil {o : Option JsonVal} {s : JSStr} (h : truthyStr o = some s) :
    s ≠ [] := by
  match o with
  | none => simp [truthyStr] at h
  | some JsonVal.jnull => simp [truthyStr] at h
  | some (JsonVal.jbool b) => simp [truthyStr] at h
  | some JsonVal.jnum => simp [truthyStr] at h
  | some (JsonVal.jarr es) => simp [truthyStr] at h
  | some (JsonVal.jobj fs) => simp [truthyStr] at h
  | some (JsonVal.jstr t) =>
    rw [truthyStr] at h
    by_cases ht : t.isEmpty
    · rw [if_pos ht] at h
      cases h
    · rw [if_neg ht] at h
      cases h
      simpa using ht

theorem firstTokenField_ne_nil {v : JsonVal} {t : JSStr} (h : firstTokenField v = some t) :
    t ≠ [] := by
  unfold firstTokenField at h
  cases h1 : truthyStr (jget v (jsS ("access_token"))) with
  | some s => rw [h1] at h; cases h; exact truthyStr_ne_nil h1
  | none =>
    rw [h1] at h
    cases h2 : truthyStr (jget v (jsS ("token"))) with
    | some s => rw [h2] at h; cases h; exact truthyStr_ne_nil h2
    | none =>
      rw [h2] at h
      exact truthyStr_ne_nil h

theorem extractToken_total {raw : JSStr} (htrim : trimC raw = raw) (hne : raw ≠ []) :
    ∃ t, extractToken raw = some t ∧ t ≠ [] := by
  simp only [extractToken]
  cases h1 : (((splitLinesC raw).map trimC).filter (fun l => !l.isEmpty)).reverse.findSome?
      (fun candidate => (jsonParse candidate).bind firstTokenField) with
  | some t =>
    refine ⟨t, rfl, ?_⟩
    obtain ⟨a, _, ha⟩ := List.exists_of_findSome?_eq_some h1
    obtain ⟨v, _, hv⟩ := Option.bind_eq_some.mp ha
    exact firstTokenField_ne_nil hv
  | none =>
    cases h2 : (jsonParse raw).bind firstTokenField with
    | some t =>
      refine ⟨t, rfl, ?_⟩
      obtain ⟨v, _, hv⟩ := Option.bind_eq_some.mp h2
      exact firstTokenField_ne_nil hv
    | none =>
      have hfil := nonEmptyLines_ne_nil htrim hne
      cases h3 : (((splitLinesC raw).map trimC).filter (fun l => !l.isEmpty)).getLast? with
      | none => exact absurd (List.getLast?_eq_none_iff.mp h3) hfil
      | some t =>
        refine ⟨t, rfl, ?_⟩
        have hmem : t ∈ ((splitLinesC raw).map trimC).filter (fun l => !l.isEmpty) := by
          obtain ⟨hn, rfl⟩ := List.mem_getLast?_eq_getLast (Option.mem_def.mpr h3)
          exact List.getLast_mem hn
        have := (List.mem_filter.mp hmem).2
        simpa using this

theorem beginsWith_iff (hay needle : JSStr) :
    beginsWith hay needle = true ↔ ∃ post, hay = needle ++ post := by
  induction hay generalizing needle with
  | nil => cases needle <;> simp [beginsWith]
  | cons c t ih =>
    cases needle with
    | nil => simp [beginsWith]
    | cons d n =>
      simp only [beginsWith, Bool.and_eq_true, beq_iff_eq, ih]
      constructor
      · rintro ⟨rfl, post, rfl⟩
        exact ⟨post, rfl⟩
      · rintro ⟨post, h⟩
        cases h
        exact ⟨rfl, post, rfl⟩

theorem containsSub_iff (hay needle : JSStr) :
    containsSub hay needle = true ↔ SubstringOf needle hay := by
  induction hay with
  | nil =>
    simp only [containsSub, SubstringOf, List.isEmpty_iff]
    constructor
    · rintro rfl
      exact ⟨[], [], rfl⟩
    · rintro ⟨pre, post, h⟩
      exact (List.append_eq_nil.mp (List.append_eq_nil.mp h.symm).1).2
  | cons c t ih =>
    simp only [containsSub, Bool.or_eq_true, beginsWith_iff, ih, SubstringOf]
    constructor
    · rintro (⟨post, h⟩ | ⟨pre, post, h⟩)
      · exact ⟨[], post, by simpa using h⟩
      · exact ⟨c :: pre, post, by simp [h]⟩
    · rintro ⟨pre, post, h⟩
      cases pre with
      | nil => exact Or.inl ⟨post, by simpa using h⟩
      | cons p ps =>
        right
        rw [List.cons_append, List.cons_append] at h
        cases h
        exact ⟨ps, post, rfl⟩

theorem trimC_eq_nil_of_no_lines {s : JSStr}
    (h : ((splitLinesC s).map trimC).filter (fun l => !l.isEmpty) = []) : trimC s = [] := by
  have hall : ∀ l ∈ (splitLinesC s).map trimC, l.isEmpty = true := by
    intro l hl
    have := List.filter_eq_nil_iff.mp h l hl
    simpa using this
  have hlines : ∀ l ∈ splitLinesC s, ∀ c ∈ l, isJsWs c = true := by
    intro l hl
    exact all_of_trimC_eq_nil (List.isEmpty_iff.mp (hall (trimC l) (List.mem_map_of_mem _ hl)))
  exact trimC_eq_nil_of_all (all_ws_of_lines_ws s hlines)

theorem findSome?_three (f : JSStr → Option JSStr) (a b c : JSStr) :
    List.findSome? f [a, b, c] =
      match f a with
      | some s => some s
      | none =>
        match f b with
        | some s => some s
        | none => f c := by
  cases hfa : f a <;> cases hfb : f b <;> cases hfc : f c <;>
    simp [List.findSome?_cons, List.findSome?_nil, hfa, hfb, hfc]

theorem tokenField_eq (v : JsonVal) : firstTokenField v = specTokenField v := by
  unfold firstTokenField specTokenField
  rw [findSome?_three]
  have hfun : ∀ k, (match jget v k with
      | some (JsonVal.jstr s) => if s.isEmpty then none else some s
      | _ => (none : Option JSStr)) = truthyStr (jget v k) := by
    intro k
    cases hk : jget v k with
    | none => rfl
    | some val => cases val <;> rfl
  rw [hfun, hfun, hfun]

theorem extractToken_eq_spec (raw : JSStr) : extractToken raw = specExtractToken raw := by
  unfold extractToken specExtractToken
  rw [show firstTokenField = specTokenField from funext tokenField_eq]

/-- C3 (as frozen) fails on the code: on a JSON-object line whose
`access_token` field is the empty string (a string-valued field), the
truthiness chain skips it.  With a non-empty `token` field present the
code returns that one instead. -/
theorem c3_token_extraction_counterexample :
    (∃ v, jsonParse (jsS ("\x7b\"access_token\":\"\",\"token\":\"B\"\x7d")) = some v ∧
      claimTokenField v = some (jsS (""))) ∧
    extractToken (jsS ("\x7b\"access_token\":\"\",\"token\":\"B\"\x7d")) = some (jsS ("B")) ∧
    jsS ("B") ≠ jsS ("") := by
  refine ⟨⟨JsonVal.jobj [(jsS ("access_token"), JsonVal.jstr (jsS (""))),
    (jsS ("token"), JsonVal.jstr (jsS ("B")))], rfl, rfl⟩, by decide, by decide⟩

/-- C3 (amended: a JSON field is only used when its value is a
NON-EMPTY string; an empty string field falls through).  Token
extraction follows the exact precedence: reverse-scan of the trimmed
non-empty lines for a JSON object with a usable field (priority
`access_token`, `token`, `bearer`), then the entire raw output as one
JSON object, then the last non-empty line verbatim; output with no
non-empty lines is rejected by the command runner with the
empty-output error.  The three example inputs behave as stated. -/
theorem c3_token_extraction_amended :
    (∀ raw, extractToken raw = specExtractToken raw) ∧
    extractToken (jsS ("\x7b\"access_token\":\"abc\"\x7d")) = some (jsS ("abc")) ∧
    extractToken (jsS ("noise\n\x7b\"token\":\"xyz\"\x7d")) = some (jsS ("xyz")) ∧
    extractToken (jsS ("plain-token-value")) = some (jsS ("plain-token-value")) ∧
    (∀ command args stdout,
      ((splitLinesC stdout).map trimC).filter (fun l => !l.isEmpty) = [] →
      runTokenCommand command args (ExecResult.succeeded stdout) =
        Except.error TokenErr.emptyOutput) := by
  refine ⟨extractToken_eq_spec, by decide, by decide, by decide, ?_⟩
  intro command args stdout hlines
  have htr : trimC stdout = [] := trimC_eq_nil_of_no_lines hlines
  simp [runTokenCommand, htr]

/-- Witness for the amended C3 at concrete inputs. -/
theorem c3_token_extraction_amended_witness :
    runTokenCommand (jsS ("cmd")) [] (ExecResult.succeeded (jsS ("  \n "))) =
      Except.error TokenErr.emptyOutput ∧
    extractToken (jsS ("plain-token-value")) = specExtractToken (jsS ("plain-token-value")) :=
  ⟨c3_token_extraction_amended.2.2.2.2 (jsS ("cmd")) [] (jsS ("  \n ")) (by decide),
   c3_token_extraction_amended.1 (jsS ("plain-token-value"))⟩

/-- C5: auth classification holds exactly when the lowercased error
text contains one of the five auth substrings; connection
classification holds exactly when the raw text contains one of the
three connection substrings; the two checks are independent and a
single message can satisfy both. -/
theorem c5_error_classification :
    (∀ msg, isAuthError msg = true ↔
      (SubstringOf (jsS ("invalid_token")) (msg.map Char.toLower) ∨
       SubstringOf (jsS ("unauthorized")) (msg.map Char.toLower) ∨
       SubstringOf (jsS ("401")) (msg.map Char.toLower) ∨
       SubstringOf (jsS ("authentication")) (msg.map Char.toLower) ∨
       SubstringOf (jsS ("access token")) (msg.map Char.toLower))) ∧
    (∀ msg, isConnectionError msg = true ↔
      (SubstringOf (jsS ("closed")) msg ∨
       SubstringOf (jsS ("ECONNREFUSED")) msg ∨
       SubstringOf (jsS ("EPIPE")) msg)) ∧
    (isAuthError (jsS ("Error: 401 connection closed")) = true ∧
     isConnectionError (jsS ("Error: 401 connection closed")) = true) := by
  refine ⟨?_, ?_, by decide, by decide⟩
  · intro msg
    simp [isAuthError, Bool.or_eq_true, containsSub_iff, or_assoc]
  · intro msg
    simp [isConnectionError, Bool.or_eq_true, containsSub_iff, or_assoc]

/-- Witness for C5: both classifier equivalences applied at a concrete
message. -/
theorem c5_error_classification_witness :
    isAuthError (jsS ("abc401def")) = true ∧ isConnectionError (jsS ("xclosedy")) = true :=
  ⟨(c5_error_classification.1 (jsS ("abc401def"))).mpr
      (Or.inr (Or.inr (Or.inl ⟨jsS ("abc"), jsS ("def"), by decide⟩))),
   (c5_error_classification.2.1 (jsS ("xclosedy"))).mpr
      (Or.inl ⟨jsS ("x"), jsS ("y"), by decide⟩)⟩

/-- C10: extraction is total on trimmed non-empty output (the
last-non-empty-line fallback always produces a non-empty token), so the
unusable-token rejection of the command runner is unreachable: a fetch
fails only with a command-failure or empty-output error. -/
theorem c10_no_unusable_token :
    (∀ raw, trimC raw = raw → raw ≠ [] → ∃ t, extractToken raw = some t ∧ t ≠ []) ∧
    (∀ command args res,
      runTokenCommand command args res ≠ Except.error TokenErr.unusableToken) := by
  constructor
  · intro raw htrim hne
    exact extractToken_total htrim hne
  · intro command args res h
    cases res with
    | failed stderrText message => simp [runTokenCommand] at h
    | succeeded stdout =>
      rw [runTokenCommand] at h
      by_cases hraw : (trimC stdout).isEmpty
      · rw [if_pos hraw] at h
        simp at h
      · rw [if_neg hraw] at h
        obtain ⟨t, ht, htne⟩ :=
          extractToken_total (trimC_idem stdout) (by simpa [List.isEmpty_iff] using hraw)
        rw [ht] at h
        have hie : t.isEmpty = false := by simpa [List.isEmpty_iff] using htne
        simp [hie] at h

/-- Witness for C10 at a concrete one-character output. -/
theorem c10_no_unusable_token_witness :
    (∃ t, extractToken (jsS ("x")) = some t ∧ t ≠ []) ∧
    runTokenCommand (jsS ("cmd")) [] (ExecResult.succeeded (jsS ("x"))) ≠
      Except.error TokenErr.unusableToken :=
  ⟨c10_no_unusable_token.1 (jsS ("x")) (by decide) (by decide),
   c10_no_unusable_token.2 (jsS ("cmd")) [] (ExecResult.succeeded (jsS ("x")))⟩

theorem getAuthTokenRun_invoked (tokenCache : List (JSStr × TokenCacheEntry)) (now : Int)
    (config : ServerConfig) (forceRefresh : Bool) (exec : ExecResult) :
    (getAuthTokenRun tokenCache now config forceRefresh exec).invoked = true := by
  simp only [getAuthTokenRun]
  cases hr : runTokenCommand (config.authTokenCommand.getD []) (config.authTokenArgs.getD [] ++
      if forceRefresh = true then config.authTokenRefreshArgs.getD [] else []) exec <;>
    simp [hr]

/-- C4: with `forceRefresh=false` the fetch skips the process
invocation exactly when a cache entry exists and is fresh
(`now - fetchedAt < ttl`), in which case the cached token is returned
and the cache is untouched; `forceRefresh=true` always invokes the
command; the TTL defaults to 2700 seconds and is floored at one
second. -/
theorem c4_token_cache_policy :
    ∀ tokenCache now config exec,
      ((getAuthToken tokenCache now config false exec).invoked = false ↔
        ∃ c, lookupK config.name tokenCache = some c ∧
          now - c.fetchedAtMs < getTokenTtlMs config) ∧
      (∀ c, lookupK config.name tokenCache = some c →
        now - c.fetchedAtMs < getTokenTtlMs config →
        getAuthToken tokenCache now config false exec =
          ⟨Except.ok c.token, tokenCache, false, []⟩) ∧
      (getAuthToken tokenCache now config true exec).invoked = true ∧
      (config.authTokenTtlSeconds = none → getTokenTtlMs config = 2700 * 1000) ∧
      (∀ ttl, config.authTokenTtlSeconds = some ttl →
        getTokenTtlMs config = max 1 ttl * 1000) := by
  intro tokenCache now config exec
  refine ⟨?_, ?_, ?_, ?_, ?_⟩
  · cases hc : lookupK config.name tokenCache with
    | none => simp [getAuthToken, hc, getAuthTokenRun_invoked]
    | some c =>
      by_cases hfresh : now - c.fetchedAtMs < getTokenTtlMs config
      · simp [getAuthToken, hc, hfresh]
      · simp [getAuthToken, hc, hfresh, getAuthTokenRun_invoked]
  · intro c hcc hfresh
    simp [getAuthToken, hcc, hfresh]
  · cases hc : lookupK config.name tokenCache with
    | none => simp [getAuthToken, hc, getAuthTokenRun_invoked]
    | some c => simp [getAuthToken, hc, getAuthTokenRun_invoked]
  · intro h
    simp [getTokenTtlMs, h]
  · intro ttl h
    simp [getTokenTtlMs, h]

/-- Witness for C4: a fresh cache entry is returned without invocation,
and a forced refresh invokes the command. -/
theorem c4_token_cache_policy_witness :
    getAuthToken [(jsS ("web"), ⟨jsS ("tok"), 0⟩)] 1000 exCfgHttp false
        (ExecResult.succeeded (jsS ("new"))) =
      ⟨Except.ok (jsS ("tok")), [(jsS ("web"), ⟨jsS ("tok"), 0⟩)], false, []⟩ ∧
    (getAuthToken [(jsS ("web"), ⟨jsS ("tok"), 0⟩)] 1000 exCfgHttp true
        (ExecResult.succeeded (jsS ("new")))).invoked = true :=
  ⟨(c4_token_cache_policy [(jsS ("web"), ⟨jsS ("tok"), 0⟩)] 1000 exCfgHttp
      (ExecResult.succeeded (jsS ("new")))).2.1 ⟨jsS ("tok"), 0⟩ (by decide) (by decide),
   (c4_token_cache_policy [(jsS ("web"), ⟨jsS ("tok"), 0⟩)] 1000 exCfgHttp
      (ExecResult.succeeded (jsS ("new")))).2.2.1⟩

theorem close_eq (st : PoolState) (serverName : JSStr) :
    close st serverName = Except.ok ⟨eraseKey serverName st.clients, st.tokenCache⟩ := by
  unfold close
  cases hc : lookupK serverName st.clients with
  | none => rw [eraseKey_of_absent hc]
  | some entry => rfl

theorem closeAllGo_eq (keys : List JSStr) (st : PoolState) :
    closeAllGo st keys =
      Except.ok ⟨List.foldl (fun cl k => eraseKey k cl) st.clients keys, st.tokenCache⟩ := by
  induction keys generalizing st with
  | nil => rfl
  | cons k rest ih =>
    rw [closeAllGo, close_eq]
    exact ih ⟨eraseKey k st.clients, st.tokenCache⟩

theorem foldl_eraseKey_keys {α : Type} (m : List (JSStr × α)) (h : (m.map Prod.fst).Nodup) :
    List.foldl (fun cl k => eraseKey k cl) m (m.map Prod.fst) = [] := by
  induction m with
  | nil => rfl
  | cons p rest ih =>
    rw [List.map_cons, List.nodup_cons] at h
    obtain ⟨hnot, hrest⟩ := h
    have h1 : eraseKey p.1 (p :: rest) = rest := by
      have h2 : lookupK p.1 rest = none := by
        refine lookupK_eq_none ?_
        intro q hq hqe
        exact hnot (hqe ▸ List.mem_map_of_mem Prod.fst hq)
      simp only [eraseKey, List.filter_cons]
      rw [if_neg (by simp)]
      exact eraseKey_of_absent h2
    rw [List.map_cons, List.foldl_cons, h1]
    exact ih hrest

/-- C6: `close` never throws; it removes exactly the named entry
(leaving the token cache untouched) and is a no-op on an absent name;
`closeAll` never throws and empties the registry, and one transport's
throwing `close()` does not prevent the other entries from being
removed, as the concrete two-server pool (first transport throwing)
shows. -/
theorem c6_close_best_effort :
    (∀ st serverName, ∃ st', close st serverName = Except.ok st' ∧
      st'.clients = eraseKey serverName st.clients ∧ st'.tokenCache = st.tokenCache) ∧
    (∀ st serverName, lookupK serverName st.clients = none →
      close st serverName = Except.ok st) ∧
    (∀ st, (st.clients.map Prod.fst).Nodup →
      ∃ st', closeAll st = Except.ok st' ∧ st'.clients = []) ∧
    closeAll exPoolTwo = Except.ok ⟨[], []⟩ := by
  refine ⟨?_, ?_, ?_, ?_⟩
  · intro st serverName
    exact ⟨⟨eraseKey serverName st.clients, st.tokenCache⟩, close_eq st serverName, rfl, rfl⟩
  · intro st serverName h
    rw [close_eq, eraseKey_of_absent h]
  · intro st h
    refine ⟨⟨[], st.tokenCache⟩, ?_, rfl⟩
    rw [closeAll, closeAllGo_eq, foldl_eraseKey_keys st.clients h]
  · rfl

/-- Witness for C6: closing an absent name in the two-server pool is a
no-op, and closing all of it removes both entries. -/
theorem c6_close_best_effort_witness :
    close exPoolTwo (jsS ("ghost")) = Except.ok exPoolTwo ∧
    ∃ st', closeAll exPoolTwo = Except.ok st' ∧ st'.clients = [] :=
  ⟨c6_close_best_effort.2.1 exPoolTwo (jsS ("ghost")) (by decide),
   c6_close_best_effort.2.2.1 exPoolTwo (by decide)⟩

theorem createTransport_kind {st : PoolState} {w : World} {config : ServerConfig}
    {f : Bool} {tM : TransportModel}
    (h : (createTransport st w config f).result = Except.ok tM) :
    tM.kind = config.transport := by
  cases htr : config.transport with
  | stdio =>
    simp only [createTransport, htr] at h
    rcases htc : takeCloseB w with ⟨cb, w1⟩
    rw [htc] at h
    cases h
    rfl
  | http =>
    simp only [createTransport, htr] at h
    cases hr : (buildHttpHeaders st.tokenCache w.now config f (peekExec w)).result with
    | error e => rw [hr] at h; cases h
    | ok hdrs =>
      rw [hr] at h
      rcases htc : takeCloseB (if (buildHttpHeaders st.tokenCache w.now config f
          (peekExec w)).invoked then dropExec w else w) with ⟨cb, w2⟩
      rw [htc] at h
      cases h
      rfl

theorem connect_eq_buildFail {st : PoolState} {w : World} {config : ServerConfig} {f : Bool}
    {e : JSStr} (h1 : (createTransport st w config f).result = Except.error e) :
    connect st w config f =
      ⟨some e, (createTransport st w config f).st, (createTransport st w config f).w,
        [Event.builtTransport f]⟩ := by
  simp only [connect]
  rw [h1]

theorem connect_eq_ok {st : PoolState} {w : World} {config : ServerConfig} {f : Bool}
    {tr : TransportModel} {w1 : World}
    (h1 : (createTransport st w config f).result = Except.ok tr)
    (h2 : takeConnect (createTransport st w config f).w = (none, w1)) :
    connect st w config f =
      connectFinish (createTransport st w config f).st w1 config tr
        [Event.builtTransport f, Event.sessionConnect] := by
  simp only [connect]
  rw [h1, h2]

theorem connect_eq_estFail_noRetry {st : PoolState} {w : World} {config : ServerConfig}
    {f : Bool} {tr : TransportModel} {err : JSStr} {w1 : World}
    (h1 : (createTransport st w config f).result = Except.ok tr)
    (h2 : takeConnect (createTransport st w config f).w = (some err, w1))
    (hg : (usesAuthTokenCommand config && isAuthError err && !f) = false) :
    connect st w config f =
      ⟨some err, (createTransport st w config f).st, w1,
        [Event.builtTransport f, Event.sessionConnect]⟩ := by
  simp only [connect]
  rw [h1, h2]
  simp [hg]

theorem connect_eq_retry_buildFail {st : PoolState} {w : World} {config : ServerConfig}
    {f : Bool} {tr : TransportModel} {err : JSStr} {w1 : World} {e2 : JSStr}
    (h1 : (createTransport st w config f).result = Except.ok tr)
    (h2 : takeConnect (createTransport st w config f).w = (some err, w1))
    (hg : (usesAuthTokenCommand config && isAuthError err && !f) = true)
    (h3 : (createTransport (createTransport st w config f).st w1 config true).result =
      Except.error e2) :
    connect st w config f =
      ⟨some e2, (createTransport (createTransport st w config f).st w1 config true).st,
        (createTransport (createTransport st w config f).st w1 config true).w,
        [Event.builtTransport f, Event.sessionConnect, Event.closedTransport,
          Event.builtTransport true]⟩ := by
  simp only [connect]
  rw [h1, h2]
  simp [hg, h3]

theorem connect_eq_retry_estFail {st : PoolState} {w : World} {config : ServerConfig}
    {f : Bool} {tr : TransportModel} {err : JSStr} {w1 : World} {tr2 : TransportModel}
    {err2 : JSStr} {w2 : World}
    (h1 : (createTransport st w config f).result = Except.ok tr)
    (h2 : takeConnect (createTransport st w config f).w = (some err, w1))
    (hg : (usesAuthTokenCommand config && isAuthError err && !f) = true)
    (h3 : (createTransport (createTransport st w config f).st w1 config true).result =
      Except.ok tr2)
    (h4 : takeConnect (createTransport (createTransport st w config f).st w1 config true).w =
      (some err2, w2)) :
    connect st w config f =
      ⟨some err2, (createTransport (createTransport st w config f).st w1 config true).st, w2,
        [Event.builtTransport f, Event.sessionConnect, Event.closedTransport,
          Event.builtTransport true, Event.sessionConnect]⟩ := by
  simp only [connect]
  rw [h1, h2]
  simp [hg, h3, h4]

theorem connect_eq_retry_ok {st : PoolState} {w : World} {config : ServerConfig}
    {f : Bool} {tr : TransportModel} {err : JSStr} {w1 : World} {tr2 : TransportModel}
    {w2 : World}
    (h1 : (createTransport st w config f).result = Except.ok tr)
    (h2 : takeConnect (createTransport st w config f).w = (some err, w1))
    (hg : (usesAuthTokenCommand config && isAuthError err && !f) = true)
    (h3 : (createTransport (createTransport st w config f).st w1 config true).result =
      Except.ok tr2)
    (h4 : takeConnect (createTransport (createTransport st w config f).st w1 config true).w =
      (none, w2)) :
    connect st w config f =
      connectFinish (createTransport (createTransport st w config f).st w1 config true).st w2
        config tr2
        [Event.builtTransport f, Event.sessionConnect, Event.closedTransport,
          Event.builtTransport true, Event.sessionConnect] := by
  simp only [connect]
  rw [h1, h2]
  simp [hg, h3, h4]

theorem connectFinish_result (st : PoolState) (w : World) (config : ServerConfig)
    (transport : TransportModel) (trace : List Event) :
    (connectFinish st w config transport trace).result = none := rfl

theorem connectFinish_lookup (st : PoolState) (w : World) (config : ServerConfig)
    (transport : TransportModel) (trace : List Event) :
    lookupK config.name (connectFinish st w config transport trace).st.clients =
      some ⟨config,
        if transport.kind = TransportKind.stdio then { transport with hooked := true }
        else transport, true⟩ := by
  simp only [connectFinish]
  exact lookupK_setKey_self _ _ _

theorem connect_ok_entry (st : PoolState) (w : World) (config : ServerConfig) (f : Bool)
    (h : (connect st w config f).result = none) :
    ∃ tM, lookupK config.name (connect st w config f).st.clients = some ⟨config, tM, true⟩ ∧
      (config.transport = TransportKind.stdio → tM.hooked = true) := by
  cases h1 : (createTransport st w config f).result with
  | error e => rw [connect_eq_buildFail h1] at h; cases h
  | ok tr =>
    rcases h2 : takeConnect (createTransport st w config f).w with ⟨c1, w1⟩
    cases c1 with
    | none =>
      rw [connect_eq_ok h1 h2]
      refine ⟨if tr.kind = TransportKind.stdio then { tr with hooked := true } else tr,
        connectFinish_lookup _ _ _ _ _, ?_⟩
      intro hstdio
      rw [if_pos ((createTransport_kind h1).trans hstdio)]
    | some err =>
      by_cases hg : (usesAuthTokenCommand config && isAuthError err && !f) = true
      · cases h3 : (createTransport (createTransport st w config f).st w1 config true).result with
        | error e2 => rw [connect_eq_retry_buildFail h1 h2 hg h3] at h; cases h
        | ok tr2 =>
          rcases h4 : takeConnect (createTransport (createTransport st w config f).st w1
              config true).w with ⟨c2, w2⟩
          cases c2 with
          | some err2 => rw [connect_eq_retry_estFail h1 h2 hg h3 h4] at h; cases h
          | none =>
            rw [connect_eq_retry_ok h1 h2 hg h3 h4]
            refine ⟨if tr2.kind = TransportKind.stdio then { tr2 with hooked := true } else tr2,
              connectFinish_lookup _ _ _ _ _, ?_⟩
            intro hstdio
            rw [if_pos ((createTransport_kind h3).trans hstdio)]
      · rw [connect_eq_estFail_noRetry h1 h2 (by simpa using hg)] at h
        cases h

/-- C8: `getStatus` reports healthy exactly when a registry entry
exists with its health flag set; an absent server is unhealthy; a
successful `connect` of a subprocess config installs the error/close
hooks on the stored transport; and a hook firing (which runs
`markDisconnected`) makes `getStatus` report unhealthy with no further
operation. -/
theorem c8_get_status :
    (∀ st serverName, getStatus st serverName = true ↔
      ∃ entry, lookupK serverName st.clients = some entry ∧ entry.connected = true) ∧
    (∀ st serverName, getStatus (markDisconnected st serverName) serverName = false) ∧
    (∀ st w config f, config.transport = TransportKind.stdio →
      (connect st w config f).result = none →
      ∃ entry, lookupK config.name (connect st w config f).st.clients = some entry ∧
        entry.transport.hooked = true) ∧
    (∀ st w serverName, hookInstalled st serverName = true →
      (step st w (Cmd.hookFiredCmd serverName)).1 = markDisconnected st serverName ∧
      getStatus ((step st w (Cmd.hookFiredCmd serverName)).1) serverName = false) := by
  have hmark : ∀ st serverName, getStatus (markDisconnected st serverName) serverName = false := by
    intro st serverName
    cases hc : lookupK serverName st.clients with
    | none =>
      have hmd : markDisconnected st serverName = st := by
        unfold markDisconnected
        rw [hc]
      rw [hmd]
      unfold getStatus
      rw [hc]
    | some entry =>
      have hmd : markDisconnected st serverName =
          { st with clients := setKey serverName { entry with connected := false } st.clients } := by
        unfold markDisconnected
        rw [hc]
      rw [hmd]
      unfold getStatus
      dsimp only
      rw [lookupK_setKey_self]
  refine ⟨?_, hmark, ?_, ?_⟩
  · intro st serverName
    cases hc : lookupK serverName st.clients with
    | none => simp [getStatus, hc]
    | some entry => simp [getStatus, hc]
  · intro st w config f hstdio hok
    obtain ⟨tM, hl, hh⟩ := connect_ok_entry st w config f hok
    exact ⟨⟨config, tM, true⟩, hl, hh hstdio⟩
  · intro st w serverName hhook
    have hstep : (step st w (Cmd.hookFiredCmd serverName)).1 = markDisconnected st serverName := by
      simp [step, hhook]
    exact ⟨hstep, by rw [hstep]; exact hmark st serverName⟩

/-- Witness for C8: connecting the subprocess config installs hooks,
and a fired hook turns the status unhealthy. -/
theorem c8_get_status_witness :
    (∃ entry, lookupK (jsS ("alpha"))
        (connect ⟨[], []⟩ ⟨0, [], [], [], []⟩ exCfgA false).st.clients = some entry ∧
      entry.transport.hooked = true) ∧
    getStatus (markDisconnected exPoolTwo (jsS ("alpha"))) (jsS ("alpha")) = false :=
  ⟨c8_get_status.2.2.1 ⟨[], []⟩ ⟨0, [], [], [], []⟩ exCfgA false rfl rfl,
   c8_get_status.2.1 exPoolTwo (jsS ("alpha"))⟩

/-- C9: for an http server the resolved request headers are the
configured static headers, plus — exactly when a credential-refresh
config is present — one auth header whose name is the configured header
name (default `Authorization`) and whose value prepends the configured
prefix (default `Bearer`, bare token when the configured prefix is
empty); a non-http transport performs no credential fetch at all. -/
theorem c9_http_headers :
    ∀ tokenCache now config forceRefreshToken exec,
      (usesAuthTokenCommand config = false →
        buildHttpHeaders tokenCache now config forceRefreshToken exec =
          ⟨Except.ok (if (config.headers.getD []).isEmpty then none
            else some (config.headers.getD [])), tokenCache, false⟩) ∧
      (usesAuthTokenCommand config = true →
        (∀ e, (getAuthToken tokenCache now config forceRefreshToken exec).result =
            Except.error e →
          (buildHttpHeaders tokenCache now config forceRefreshToken exec).result =
            Except.error e) ∧
        (∀ token, (getAuthToken tokenCache now config forceRefreshToken exec).result =
            Except.ok token →
          (buildHttpHeaders tokenCache now config forceRefreshToken exec).result =
            Except.ok (some (setKey (authHeaderName config) (authHeaderValue config token)
              (config.headers.getD []))))) ∧
      (config.authTokenHeader = none → authHeaderName config = jsS ("Authorization")) ∧
      (∀ h, config.authTokenHeader = some h → ¬h.isEmpty = true → authHeaderName config = h) ∧
      (∀ token, config.authTokenPfx = none →
        authHeaderValue config token = jsS ("Bearer ") ++ token) ∧
      (∀ token p, config.authTokenPfx = some p → ¬p.isEmpty = true →
        authHeaderValue config token = p ++ jsS (" ") ++ token) ∧
      (∀ token, config.authTokenPfx = some [] → authHeaderValue config token = token) ∧
      (∀ st w, config.transport = TransportKind.stdio →
        createTransport st w config forceRefreshToken =
          ⟨Except.ok ⟨TransportKind.stdio, none, false, (takeCloseB w).1⟩, st,
            (takeCloseB w).2⟩) := by
  intro tokenCache now config forceRefreshToken exec
  refine ⟨?_, ?_, ?_, ?_, ?_, ?_, ?_, ?_⟩
  · intro h
    simp [buildHttpHeaders, h]
  · intro h
    constructor
    · intro e he
      simp [buildHttpHeaders, h, he]
    · intro token ht
      simp [buildHttpHeaders, h, ht]
  · intro h
    simp [authHeaderName, h]
  · intro hd hh hne
    simp [authHeaderName, hh, hne]
  · intro token h
    simp only [authHeaderValue, h, Option.getD_some, Option.getD_none]
    rw [if_neg (by decide)]
    rfl
  · intro token p hp hne
    simp [authHeaderValue, hp, hne]
  · intro token hp
    simp [authHeaderValue, hp]
  · intro st w htr
    simp only [createTransport, htr]

/-- Witness for C9 at the concrete http config: the auth header is
added under the default name with the default Bearer prefix, and the
stdio config performs no fetch. -/
theorem c9_http_headers_witness :
    (buildHttpHeaders [] 0 exCfgHttp false (ExecResult.succeeded (jsS ("tok")))).result =
      Except.ok (some (setKey (authHeaderName exCfgHttp) (authHeaderValue exCfgHttp (jsS ("tok")))
        [])) ∧
    authHeaderName exCfgHttp = jsS ("Authorization") ∧
    authHeaderValue exCfgHttp (jsS ("tok")) = jsS ("Bearer ") ++ jsS ("tok") ∧
    createTransport ⟨[], []⟩ ⟨0, [], [], [], []⟩ exCfgA false =
      ⟨Except.ok ⟨TransportKind.stdio, none, false,
        (takeCloseB ⟨0, [], [], [], []⟩).1⟩, ⟨[], []⟩, (takeCloseB ⟨0, [], [], [], []⟩).2⟩ :=
  ⟨(c9_http_headers [] 0 exCfgHttp false (ExecResult.succeeded (jsS ("tok")))).2.1 rfl |>.2
      (jsS ("tok")) rfl,
   (c9_http_headers [] 0 exCfgHttp false (ExecResult.succeeded (jsS ("tok")))).2.2.1 rfl,
   (c9_http_headers [] 0 exCfgHttp false (ExecResult.succeeded (jsS ("tok")))).2.2.2.2.1
      (jsS ("tok")) rfl,
   (c9_http_headers [] 0 exCfgA false
      (ExecResult.succeeded (jsS ("tok")))).2.2.2.2.2.2.2 ⟨[], []⟩ ⟨0, [], [], [], []⟩ rfl⟩

/-- C2: `connect` builds a transport and attempts to establish the
session; a transport-build failure propagates without an establishment
attempt; when establishing fails with an auth-classified error on an
auth-capable server outside a forced attempt, the transport is closed
and the remainder behaves exactly as a whole `connect` with
`forceRefresh=true` (same result, state and world, with the trace of
the retried connect appended after the closing of the first
transport); any other failure propagates unchanged; and a
forced-refresh attempt establishes at most once (a failure on the
retried attempt is never retried again). -/
theorem c2_connect_auth_retry :
    ∀ st w config forceRefreshToken,
      (∀ e, (createTransport st w config forceRefreshToken).result = Except.error e →
        connect st w config forceRefreshToken =
          ⟨some e, (createTransport st w config forceRefreshToken).st,
            (createTransport st w config forceRefreshToken).w,
            [Event.builtTransport forceRefreshToken]⟩) ∧
      (∀ tr err w1,
        (createTransport st w config forceRefreshToken).result = Except.ok tr →
        takeConnect (createTransport st w config forceRefreshToken).w = (some err, w1) →
        (((usesAuthTokenCommand config && isAuthError err) = true ∧ forceRefreshToken = false) →
          connect st w config forceRefreshToken =
            ⟨(connect (createTransport st w config forceRefreshToken).st w1 config true).result,
              (connect (createTransport st w config forceRefreshToken).st w1 config true).st,
              (connect (createTransport st w config forceRefreshToken).st w1 config true).w,
              [Event.builtTransport forceRefreshToken, Event.sessionConnect,
                Event.closedTransport] ++
                (connect (createTransport st w config forceRefreshToken).st w1 config
                  true).trace⟩) ∧
        (((usesAuthTokenCommand config && isAuthError err) = false ∨ forceRefreshToken = true) →
          connect st w config forceRefreshToken =
            ⟨some err, (createTransport st w config forceRefreshToken).st, w1,
              [Event.builtTransport forceRefreshToken, Event.sessionConnect]⟩)) ∧
      (forceRefreshToken = true →
        sessionConnectCount (connect st w config forceRefreshToken).trace ≤ 1) := by
  intro st w config f
  refine ⟨?_, ?_, ?_⟩
  · intro e h1
    exact connect_eq_buildFail h1
  · intro tr err w1 h1 h2
    constructor
    · rintro ⟨hauth, rfl⟩
      have hg : (usesAuthTokenCommand config && isAuthError err && !false) = true := by
        simp [hauth]
      cases h3 : (createTransport (createTransport st w config false).st w1 config
          true).result with
      | error e2 =>
        rw [connect_eq_retry_buildFail h1 h2 hg h3, connect_eq_buildFail h3]
        rfl
      | ok tr2 =>
        rcases h4 : takeConnect (createTransport (createTransport st w config false).st w1
            config true).w with ⟨c2, w2⟩
        cases c2 with
        | some err2 =>
          have hg2 : (usesAuthTokenCommand config && isAuthError err2 && !true) = false := by
            simp
          rw [connect_eq_retry_estFail h1 h2 hg h3 h4,
            connect_eq_estFail_noRetry h3 h4 hg2]
          rfl
        | none =>
          rw [connect_eq_retry_ok h1 h2 hg h3 h4, connect_eq_ok h3 h4]
          simp [connectFinish]
    · intro hother
      have hg : (usesAuthTokenCommand config && isAuthError err && !f) = false := by
        rcases hother with hauth | rfl
        · simp [hauth]
        · simp
      exact connect_eq_estFail_noRetry h1 h2 hg
  · rintro rfl
    cases h1 : (createTransport st w config true).result with
    | error e =>
      rw [connect_eq_buildFail h1]
      simp [sessionConnectCount]
    | ok tr =>
      rcases h2 : takeConnect (createTransport st w config true).w with ⟨c1, w1⟩
      cases c1 with
      | none =>
        rw [connect_eq_ok h1 h2]
        simp [connectFinish, sessionConnectCount]
      | some err =>
        have hg : (usesAuthTokenCommand config && isAuthError err && !true) = false := by simp
        rw [connect_eq_estFail_noRetry h1 h2 hg]
        simp [sessionConnectCount]

/-- Witness for C2: on a concrete http pool whose first establishment
attempt fails with a 401, the connect call behaves as the
forced-refresh connect prefixed by the first build/attempt/close. -/
theorem c2_connect_auth_retry_witness :
    connect ⟨[], []⟩
        ⟨0, [ExecResult.succeeded (jsS ("t1")), ExecResult.succeeded (jsS ("t2"))],
          [some (jsS ("401")), none], [], []⟩ exCfgHttp false =
      ⟨(connect (createTransport ⟨[], []⟩
          ⟨0, [ExecResult.succeeded (jsS ("t1")), ExecResult.succeeded (jsS ("t2"))],
            [some (jsS ("401")), none], [], []⟩ exCfgHttp false).st
          ⟨0, [ExecResult.succeeded (jsS ("t2"))], [none], [], []⟩ exCfgHttp true).result,
        (connect (createTransport ⟨[], []⟩
          ⟨0, [ExecResult.succeeded (jsS ("t1")), ExecResult.succeeded (jsS ("t2"))],
            [some (jsS ("401")), none], [], []⟩ exCfgHttp false).st
          ⟨0, [ExecResult.succeeded (jsS ("t2"))], [none], [], []⟩ exCfgHttp true).st,
        (connect (createTransport ⟨[], []⟩
          ⟨0, [ExecResult.succeeded (jsS ("t1")), ExecResult.succeeded (jsS ("t2"))],
            [some (jsS ("401")), none], [], []⟩ exCfgHttp false).st
          ⟨0, [ExecResult.succeeded (jsS ("t2"))], [none], [], []⟩ exCfgHttp true).w,
        [Event.builtTransport false, Event.sessionConnect, Event.closedTransport] ++
          (connect (createTransport ⟨[], []⟩
            ⟨0, [ExecResult.succeeded (jsS ("t1")), ExecResult.succeeded (jsS ("t2"))],
              [some (jsS ("401")), none], [], []⟩ exCfgHttp false).st
            ⟨0, [ExecResult.succeeded (jsS ("t2"))], [none], [], []⟩ exCfgHttp true).trace⟩ :=
  ((c2_connect_auth_retry ⟨[], []⟩
      ⟨0, [ExecResult.succeeded (jsS ("t1")), ExecResult.succeeded (jsS ("t2"))],
        [some (jsS ("401")), none], [], []⟩ exCfgHttp false).2.1
    ⟨TransportKind.http, some [(jsS ("Authorization"), jsS ("Bearer t1"))], false, none⟩
    (jsS ("401")) ⟨0, [ExecResult.succeeded (jsS ("t2"))], [none], [], []⟩
    rfl rfl).1 ⟨by decide, rfl⟩

theorem connect_trace_shape (st : PoolState) (w : World) (config : ServerConfig) (f : Bool) :
    recoveryFlags (connect st w config f).trace = [] ∧
      opAttemptCount (connect st w config f).trace = 0 := by
  cases h1 : (createTransport st w config f).result with
  | error e => rw [connect_eq_buildFail h1]; exact ⟨rfl, rfl⟩
  | ok tr =>
    rcases h2 : takeConnect (createTransport st w config f).w with ⟨c1, w1⟩
    cases c1 with
    | none => rw [connect_eq_ok h1 h2]; exact ⟨rfl, rfl⟩
    | some err =>
      by_cases hg : (usesAuthTokenCommand config && isAuthError err && !f) = true
      · cases h3 : (createTransport (createTransport st w config f).st w1 config true).result with
        | error e2 => rw [connect_eq_retry_buildFail h1 h2 hg h3]; exact ⟨rfl, rfl⟩
        | ok tr2 =>
          rcases h4 : takeConnect (createTransport (createTransport st w config f).st w1
              config true).w with ⟨c2, w2⟩
          cases c2 with
          | some err2 => rw [connect_eq_retry_estFail h1 h2 hg h3 h4]; exact ⟨rfl, rfl⟩
          | none => rw [connect_eq_retry_ok h1 h2 hg h3 h4]; exact ⟨rfl, rfl⟩
      · rw [connect_eq_estFail_noRetry h1 h2 (by simpa using hg)]
        exact ⟨rfl, rfl⟩

theorem reconnect_eq {st : PoolState} {serverName : JSStr} {entry : ClientEntry}
    (hlookup : lookupK serverName st.clients = some entry) (w : World) (force : Bool) :
    reconnect st w serverName force =
      ⟨(connect st w entry.config force).result, (connect st w entry.config force).st,
        (connect st w entry.config force).w,
        Event.closedTransport :: (connect st w entry.config force).trace⟩ := by
  simp only [reconnect]
  rw [hlookup]

theorem reconnect_trace_shape (st : PoolState) (w : World) (serverName : JSStr) (force : Bool) :
    recoveryFlags (reconnect st w serverName force).trace = [] ∧
      opAttemptCount (reconnect st w serverName force).trace = 0 := by
  cases hlookup : lookupK serverName st.clients with
  | none =>
    have h : reconnect st w serverName force = ⟨none, st, w, []⟩ := by
      simp only [reconnect]
      rw [hlookup]
    rw [h]
    exact ⟨rfl, rfl⟩
  | some entry =>
    rw [reconnect_eq hlookup]
    obtain ⟨hr, ho⟩ := connect_trace_shape st w entry.config force
    constructor
    · show recoveryFlags (Event.closedTransport :: (connect st w entry.config force).trace) = []
      rw [recoveryFlags, List.filterMap_cons]
      exact hr
    · show opAttemptCount (Event.closedTransport :: (connect st w entry.config force).trace) = 0
      rw [opAttemptCount, List.filter_cons]
      exact ho

theorem opAttemptCount_append (l1 l2 : List Event) :
    opAttemptCount (l1 ++ l2) = opAttemptCount l1 + opAttemptCount l2 := by
  simp [opAttemptCount, List.filter_append]

theorem listTools_eq_unknown {st : PoolState} {serverName : JSStr}
    (hlookup : lookupK serverName st.clients = none) (w : World) :
    listTools st w serverName =
      ⟨OpOutcome.err (unknownServerMsg serverName), st, w, []⟩ := by
  simp only [listTools]
  rw [hlookup]

theorem listTools_eq_ok {st : PoolState} {serverName : JSStr} {entry : ClientEntry}
    {r : Nat} {w1 : World}
    (hlookup : lookupK serverName st.clients = some entry) (w : World)
    (htake : takeOp w = (OpOutcome.ok r, w1)) :
    listTools st w serverName = ⟨OpOutcome.ok r, st, w1, [Event.opAttempt]⟩ := by
  simp only [listTools]
  rw [hlookup, htake]

theorem listTools_eq_recFail {st : PoolState} {serverName : JSStr} {entry : ClientEntry}
    {e : JSStr} {w1 : World} {force : Bool} {e2 : JSStr}
    (hlookup : lookupK serverName st.clients = some entry) (w : World)
    (htake : takeOp w = (OpOutcome.err e, w1))
    (hga : (usesAuthTokenCommand entry.config && isAuthError e) = force)
    (hgc : force = false → (!entry.connected || isConnectionError e) = true)
    (hrc : (reconnect st w1 serverName force).result = some e2) :
    listTools st w serverName =
      ⟨OpOutcome.err e2, (reconnect st w1 serverName force).st,
        (reconnect st w1 serverName force).w,
        Event.opAttempt :: Event.reconnected force :: (reconnect st w1 serverName force).trace⟩ := by
  cases force with
  | true => simp [listTools, hlookup, htake, hga, hrc]
  | false => simp [listTools, hlookup, htake, hga, hgc rfl, hrc]

theorem listTools_eq_recOk {st : PoolState} {serverName : JSStr} {entry : ClientEntry}
    {e : JSStr} {w1 : World} {force : Bool} {entry2 : ClientEntry} {a2 : OpOutcome} {w2 : World}
    (hlookup : lookupK serverName st.clients = some entry) (w : World)
    (htake : takeOp w = (OpOutcome.err e, w1))
    (hga : (usesAuthTokenCommand entry.config && isAuthError e) = force)
    (hgc : force = false → (!entry.connected || isConnectionError e) = true)
    (hrc : (reconnect st w1 serverName force).result = none)
    (hlookup2 : lookupK serverName (reconnect st w1 serverName force).st.clients = some entry2)
    (htake2 : takeOp (reconnect st w1 serverName force).w = (a2, w2)) :
    listTools st w serverName =
      ⟨a2, (reconnect st w1 serverName force).st, w2,
        Event.opAttempt :: Event.reconnected force ::
          ((reconnect st w1 serverName force).trace ++ [Event.opAttempt])⟩ := by
  cases force with
  | true => simp [listTools, hlookup, htake, hga, hrc, hlookup2, htake2]
  | false => simp [listTools, hlookup, htake, hga, hgc rfl, hrc, hlookup2, htake2]

theorem listTools_eq_propagate {st : PoolState} {serverName : JSStr} {entry : ClientEntry}
    {e : JSStr} {w1 : World}
    (hlookup : lookupK serverName st.clients = some entry) (w : World)
    (htake : takeOp w = (OpOutcome.err e, w1))
    (hga : (usesAuthTokenCommand entry.config && isAuthError e) = false)
    (hgc : (!entry.connected || isConnectionError e) = false) :
    listTools st w serverName = ⟨OpOutcome.err e, st, w1, [Event.opAttempt]⟩ := by
  simp [listTools, hlookup, htake, hga, hgc]

theorem recoveryFlags_cons_opAttempt (l : List Event) :
    recoveryFlags (Event.opAttempt :: l) = recoveryFlags l := rfl

theorem recoveryFlags_cons_reconnected (b : Bool) (l : List Event) :
    recoveryFlags (Event.reconnected b :: l) = b :: recoveryFlags l := rfl

theorem recoveryFlags_append (l1 l2 : List Event) :
    recoveryFlags (l1 ++ l2) = recoveryFlags l1 ++ recoveryFlags l2 := by
  simp [recoveryFlags, List.filterMap_append]

theorem opAttemptCount_cons_opAttempt (l : List Event) :
    opAttemptCount (Event.opAttempt :: l) = opAttemptCount l + 1 := by
  simp [opAttemptCount, List.filter_cons]

theorem opAttemptCount_cons_reconnected (b : Bool) (l : List Event) :
    opAttemptCount (Event.reconnected b :: l) = opAttemptCount l := rfl

theorem listTools_recovery_case {st : PoolState} {w : World} {serverName : JSStr}
    {entry : ClientEntry} {e : JSStr} {w1 : World} {force : Bool}
    (hwk : WellKeyed st)
    (hlookup : lookupK serverName st.clients = some entry)
    (htake : takeOp w = (OpOutcome.err e, w1))
    (hga : (usesAuthTokenCommand entry.config && isAuthError e) = force)
    (hgc : force = false → (!entry.connected || isConnectionError e) = true) :
    recoveryFlags (listTools st w serverName).trace = [force] ∧
      RetryBehavior st w serverName force := by
  have hw1 : (takeOp w).2 = w1 := by rw [htake]
  cases hrc : (reconnect st w1 serverName force).result with
  | some e2 =>
    have heq := listTools_eq_recFail hlookup w htake hga hgc hrc
    constructor
    · rw [heq]
      show recoveryFlags (Event.opAttempt :: Event.reconnected force ::
        (reconnect st w1 serverName force).trace) = [force]
      rw [recoveryFlags_cons_opAttempt, recoveryFlags_cons_reconnected,
        (reconnect_trace_shape st w1 serverName force).1]
    · simp only [RetryBehavior]
      rw [hw1]
      constructor
      · intro e2' hrc'
        rw [hrc] at hrc'
        cases hrc'
        rw [heq]
        refine ⟨rfl, rfl, ?_⟩
        show opAttemptCount (Event.opAttempt :: Event.reconnected force ::
          (reconnect st w1 serverName force).trace) = 1
        rw [opAttemptCount_cons_opAttempt, opAttemptCount_cons_reconnected,
          (reconnect_trace_shape st w1 serverName force).2]
      · intro hrc'
        rw [hrc] at hrc'
        cases hrc'
  | none =>
    have hok : (connect st w1 entry.config force).result = none := by
      have hre := reconnect_eq hlookup w1 force
      rw [hre] at hrc
      exact hrc
    obtain ⟨tM, hl2, _⟩ := connect_ok_entry st w1 entry.config force hok
    have hname : entry.config.name = serverName := hwk (serverName, entry) (lookupK_mem hlookup)
    have hlookup2 : lookupK serverName (reconnect st w1 serverName force).st.clients =
        some ⟨entry.config, tM, true⟩ := by
      rw [reconnect_eq hlookup w1 force]
      show lookupK serverName (connect st w1 entry.config force).st.clients = _
      rw [← hname]
      exact hl2
    rcases htake2 : takeOp (reconnect st w1 serverName force).w with ⟨a2, w2⟩
    have heq := listTools_eq_recOk hlookup w htake hga hgc hrc hlookup2 htake2
    constructor
    · rw [heq]
      show recoveryFlags (Event.opAttempt :: Event.reconnected force ::
        ((reconnect st w1 serverName force).trace ++ [Event.opAttempt])) = [force]
      rw [recoveryFlags_cons_opAttempt, recoveryFlags_cons_reconnected, recoveryFlags_append,
        (reconnect_trace_shape st w1 serverName force).1]
      rfl
    · simp only [RetryBehavior]
      rw [hw1]
      constructor
      · intro e2 hrc'
        rw [hrc] at hrc'
        cases hrc'
      · intro _
        rw [heq]
        refine ⟨?_, rfl, ?_⟩
        · rw [htake2]
        · show opAttemptCount (Event.opAttempt :: Event.reconnected force ::
            ((reconnect st w1 serverName force).trace ++ [Event.opAttempt])) = 2
          rw [opAttemptCount_cons_opAttempt, opAttemptCount_cons_reconnected,
            opAttemptCount_append, (reconnect_trace_shape st w1 serverName force).2]
          decide

theorem callTool_eq_listTools (st : PoolState) (w : World) (serverName toolName argsJson : JSStr) :
    callTool st w serverName toolName argsJson = listTools st w serverName := by
  unfold callTool listTools
  rfl

/-- C1: on a well-keyed registry, `listTools` (and `callTool`, which
follows the identical protocol) applies exactly one recovery attempt in
priority order: an unknown server fails hard with no recovery; a
successful first attempt performs no recovery; on a failed first
attempt, an auth-classified error on an auth-capable server triggers
exactly one forced-refresh reconnect, an unhealthy entry or
connection-classified error exactly one plain reconnect, and otherwise
the error propagates unmodified with no recovery; after a reconnect the
operation is retried exactly once and the retried attempt's failure
propagates (no further attempt), while a reconnect failure propagates
with no retried attempt. -/
theorem c1_operation_recovery :
    ∀ st w serverName, WellKeyed st →
      (lookupK serverName st.clients = none →
        listTools st w serverName =
          ⟨OpOutcome.err (unknownServerMsg serverName), st, w, []⟩) ∧
      (∀ entry, lookupK serverName st.clients = some entry →
        (∀ r w1, takeOp w = (OpOutcome.ok r, w1) →
          listTools st w serverName = ⟨OpOutcome.ok r, st, w1, [Event.opAttempt]⟩) ∧
        (∀ e w1, takeOp w = (OpOutcome.err e, w1) →
          ((usesAuthTokenCommand entry.config && isAuthError e) = true →
            recoveryFlags (listTools st w serverName).trace = [true] ∧
            RetryBehavior st w serverName true) ∧
          ((usesAuthTokenCommand entry.config && isAuthError e) = false →
            (!entry.connected || isConnectionError e) = true →
            recoveryFlags (listTools st w serverName).trace = [false] ∧
            RetryBehavior st w serverName false) ∧
          ((usesAuthTokenCommand entry.config && isAuthError e) = false →
            (!entry.connected || isConnectionError e) = false →
            listTools st w serverName = ⟨OpOutcome.err e, st, w1, [Event.opAttempt]⟩))) ∧
      (∀ toolName argsJson,
        callTool st w serverName toolName argsJson = listTools st w serverName) := by
  intro st w serverName hwk
  refine ⟨?_, ?_, ?_⟩
  · intro hlookup
    exact listTools_eq_unknown hlookup w
  · intro entry hlookup
    constructor
    · intro r w1 htake
      exact listTools_eq_ok hlookup w htake
    · intro e w1 htake
      refine ⟨?_, ?_, ?_⟩
      · intro hga
        exact listTools_recovery_case hwk hlookup htake hga (by intro hc; cases hc)
      · intro hga hgc
        exact listTools_recovery_case hwk hlookup htake hga (fun _ => hgc)
      · intro hga hgc
        exact listTools_eq_propagate hlookup w htake hga hgc
  · intro toolName argsJson
    exact callTool_eq_listTools st w serverName toolName argsJson

/-- Witness for C1: an unknown name fails hard with no recovery on the
concrete two-server pool, and an auth-classified failure on a concrete
http pool records exactly one forced-refresh recovery. -/
theorem c1_operation_recovery_witness :
    listTools exPoolTwo ⟨0, [], [], [], []⟩ (jsS ("ghost")) =
      ⟨OpOutcome.err (unknownServerMsg (jsS ("ghost"))), exPoolTwo, ⟨0, [], [], [], []⟩, []⟩ ∧
    recoveryFlags (listTools
      ⟨[(jsS ("web"), ⟨exCfgHttp, ⟨TransportKind.http, none, false, none⟩, true⟩)], []⟩
      ⟨0, [ExecResult.succeeded (jsS ("t2"))], [none], [OpOutcome.err (jsS ("401"))], []⟩
      (jsS ("web"))).trace = [true] :=
  ⟨(c1_operation_recovery exPoolTwo ⟨0, [], [], [], []⟩ (jsS ("ghost"))
      (by intro p hp; fin_cases hp <;> decide)).1 rfl,
   ((c1_operation_recovery
      ⟨[(jsS ("web"), ⟨exCfgHttp, ⟨TransportKind.http, none, false, none⟩, true⟩)], []⟩
      ⟨0, [ExecResult.succeeded (jsS ("t2"))], [none], [OpOutcome.err (jsS ("401"))], []⟩
      (jsS ("web")) (by intro p hp; fin_cases hp <;> decide)).2.1
      ⟨exCfgHttp, ⟨TransportKind.http, none, false, none⟩, true⟩ rfl).2
      (jsS ("401")) ⟨0, [ExecResult.succeeded (jsS ("t2"))], [none], [], []⟩ rfl |>.1
      (by decide) |>.1⟩

theorem listTools_eq_recPanic {st : PoolState} {serverName : JSStr} {entry : ClientEntry}
    {e : JSStr} {w1 : World} {force : Bool}
    (hlookup : lookupK serverName st.clients = some entry) (w : World)
    (htake : takeOp w = (OpOutcome.err e, w1))
    (hga : (usesAuthTokenCommand entry.config && isAuthError e) = force)
    (hgc : force = false → (!entry.connected || isConnectionError e) = true)
    (hrc : (reconnect st w1 serverName force).result = none)
    (hlookup2 : lookupK serverName (reconnect st w1 serverName force).st.clients = none) :
    listTools st w serverName =
      ⟨OpOutcome.err (jsS ("Error: TypeError")), (reconnect st w1 serverName force).st,
        (reconnect st w1 serverName force).w,
        Event.opAttempt :: Event.reconnected force :: (reconnect st w1 serverName force).trace⟩ := by
  cases force with
  | true => simp [listTools, hlookup, htake, hga, hrc, hlookup2]
  | false => simp [listTools, hlookup, htake, hga, hgc rfl, hrc, hlookup2]

theorem createTransport_clients (st : PoolState) (w : World) (config : ServerConfig)
    (f : Bool) : (createTransport st w config f).st.clients = st.clients := by
  cases htr : config.transport with
  | stdio =>
    rcases htc : takeCloseB w with ⟨cb, w1⟩
    simp [createTransport, htr, htc]
  | http =>
    cases hr : (buildHttpHeaders st.tokenCache w.now config f (peekExec w)).result with
    | error e => simp [createTransport, htr, hr]
    | ok hdrs =>
      rcases htc : takeCloseB (if (buildHttpHeaders st.tokenCache w.now config f
          (peekExec w)).invoked then dropExec w else w) with ⟨cb, w2⟩
      simp [createTransport, htr, hr, htc]

theorem forced_cons_opAttempt (l : List Event) :
    forcedRefreshEvents (Event.opAttempt :: l) = forcedRefreshEvents l := rfl

theorem forced_cons_sessionConnect (l : List Event) :
    forcedRefreshEvents (Event.sessionConnect :: l) = forcedRefreshEvents l := rfl

theorem forced_cons_closed (l : List Event) :
    forcedRefreshEvents (Event.closedTransport :: l) = forcedRefreshEvents l := rfl

theorem forced_cons_builtFalse (l : List Event) :
    forcedRefreshEvents (Event.builtTransport false :: l) = forcedRefreshEvents l := rfl

theorem forced_cons_reconnectedFalse (l : List Event) :
    forcedRefreshEvents (Event.reconnected false :: l) = forcedRefreshEvents l := rfl

theorem connect_safe {config : ServerConfig} (hcfg : usesAuthTokenCommand config = false)
    (st : PoolState) (w : World) :
    forcedRefreshEvents (connect st w config false).trace = [] ∧
      (SafePool st → SafePool (connect st w config false).st) := by
  cases h1 : (createTransport st w config false).result with
  | error e =>
    rw [connect_eq_buildFail h1]
    refine ⟨rfl, fun hs p hp => ?_⟩
    rw [createTransport_clients] at hp
    exact hs p hp
  | ok tr =>
    rcases h2 : takeConnect (createTransport st w config false).w with ⟨c1, w1⟩
    cases c1 with
    | none =>
      rw [connect_eq_ok h1 h2]
      refine ⟨rfl, fun hs p hp => ?_⟩
      simp only [connectFinish] at hp
      rcases mem_setKey hp with rfl | hp2
      · exact hcfg
      · rw [createTransport_clients] at hp2
        exact hs p hp2
    | some err =>
      have hg : (usesAuthTokenCommand config && isAuthError err && !false) = false := by
        simp [hcfg]
      rw [connect_eq_estFail_noRetry h1 h2 hg]
      refine ⟨rfl, fun hs p hp => ?_⟩
      rw [createTransport_clients] at hp
      exact hs p hp

theorem reconnect_safe (st : PoolState) (w : World) (serverName : JSStr)
    (hsafe : SafePool st) :
    forcedRefreshEvents (reconnect st w serverName false).trace = [] ∧
      SafePool (reconnect st w serverName false).st := by
  cases hlookup : lookupK serverName st.clients with
  | none =>
    have h : reconnect st w serverName false = ⟨none, st, w, []⟩ := by
      simp only [reconnect]
      rw [hlookup]
    rw [h]
    exact ⟨rfl, hsafe⟩
  | some entry =>
    have hcfg : usesAuthTokenCommand entry.config = false :=
      hsafe (serverName, entry) (lookupK_mem hlookup)
    rw [reconnect_eq hlookup]
    obtain ⟨htr, hst⟩ := connect_safe hcfg st w
    constructor
    · show forcedRefreshEvents (Event.closedTransport ::
        (connect st w entry.config false).trace) = []
      rw [forced_cons_closed]
      exact htr
    · exact hst hsafe

theorem forcedRefreshEvents_append (l1 l2 : List Event) :
    forcedRefreshEvents (l1 ++ l2) = forcedRefreshEvents l1 ++ forcedRefreshEvents l2 := by
  simp [forcedRefreshEvents, List.filter_append]

theorem listTools_safe (st : PoolState) (w : World) (serverName : JSStr)
    (hsafe : SafePool st) :
    forcedRefreshEvents (listTools st w serverName).trace = [] ∧
      SafePool (listTools st w serverName).st := by
  cases hlookup : lookupK serverName st.clients with
  | none =>
    rw [listTools_eq_unknown hlookup]
    exact ⟨rfl, hsafe⟩
  | some entry =>
    have hcfg : usesAuthTokenCommand entry.config = false :=
      hsafe (serverName, entry) (lookupK_mem hlookup)
    rcases htake : takeOp w with ⟨a1, w1⟩
    cases a1 with
    | ok r =>
      rw [listTools_eq_ok hlookup w htake]
      exact ⟨rfl, hsafe⟩
    | err e =>
      have hga : (usesAuthTokenCommand entry.config && isAuthError e) = false := by
        simp [hcfg]
      obtain ⟨hrtr, hrst⟩ := reconnect_safe st w1 serverName hsafe
      cases hgc : (!entry.connected || isConnectionError e) with
      | false =>
        rw [listTools_eq_propagate hlookup w htake hga hgc]
        exact ⟨rfl, hsafe⟩
      | true =>
        cases hrc : (reconnect st w1 serverName false).result with
        | some e2 =>
          rw [listTools_eq_recFail hlookup w htake hga (fun _ => hgc) hrc]
          refine ⟨?_, hrst⟩
          rw [forced_cons_opAttempt, forced_cons_reconnectedFalse]
          exact hrtr
        | none =>
          cases hlookup2 : lookupK serverName (reconnect st w1 serverName false).st.clients with
          | none =>
            rw [listTools_eq_recPanic hlookup w htake hga (fun _ => hgc) hrc hlookup2]
            refine ⟨?_, hrst⟩
            rw [forced_cons_opAttempt, forced_cons_reconnectedFalse]
            exact hrtr
          | some entry2 =>
            rcases htake2 : takeOp (reconnect st w1 serverName false).w with ⟨a2, w2⟩
            rw [listTools_eq_recOk hlookup w htake hga (fun _ => hgc) hrc hlookup2 htake2]
            refine ⟨?_, hrst⟩
            rw [forced_cons_opAttempt, forced_cons_reconnectedFalse,
              forcedRefreshEvents_append, hrtr]
            rfl

theorem closeAll_safe (st : PoolState) (hsafe : SafePool st) :
    ∀ st', closeAll st = Except.ok st' → SafePool st' := by
  intro st' h
  rw [closeAll, closeAllGo_eq] at h
  cases h
  intro p hp
  have hmem : p ∈ st.clients := by
    clear hsafe
    generalize st.clients.map Prod.fst = keys at hp
    induction keys generalizing st with
    | nil => exact hp
    | cons k rest ih =>
      rw [List.foldl_cons] at hp
      exact mem_eraseKey (ih ⟨eraseKey k st.clients, st.tokenCache⟩ hp)
  exact hsafe p hmem

theorem markDisconnected_safe (st : PoolState) (serverName : JSStr) (hsafe : SafePool st) :
    SafePool (markDisconnected st serverName) := by
  cases hlookup : lookupK serverName st.clients with
  | none =>
    have h : markDisconnected st serverName = st := by
      unfold markDisconnected
      rw [hlookup]
    rw [h]
    exact hsafe
  | some entry =>
    have h : markDisconnected st serverName =
        { st with clients := setKey serverName { entry with connected := false } st.clients } := by
      unfold markDisconnected
      rw [hlookup]
    rw [h]
    intro p hp
    rcases mem_setKey hp with rfl | hp2
    · exact hsafe (serverName, entry) (lookupK_mem hlookup)
    · exact hsafe p hp2

theorem step_safe (st : PoolState) (w : World) (c : Cmd) (hsafe : SafePool st)
    (hc : ∀ cfg, c = Cmd.connectCmd cfg → usesAuthTokenCommand cfg = false) :
    forcedRefreshEvents (step st w c).2.2 = [] ∧ SafePool (step st w c).1 := by
  cases c with
  | connectCmd cfg =>
    obtain ⟨htr, hst⟩ := connect_safe (hc cfg rfl) st w
    exact ⟨htr, hst hsafe⟩
  | listToolsCmd n => exact listTools_safe st w n hsafe
  | callToolCmd n tn aj =>
    have h := listTools_safe st w n hsafe
    simp only [step, callTool_eq_listTools]
    exact h
  | closeCmd n =>
    simp only [step]
    rw [close_eq]
    refine ⟨rfl, fun p hp => hsafe p (mem_eraseKey hp)⟩
  | closeAllCmd =>
    simp only [step]
    rcases hca : closeAll st with e | st'
    · rw [closeAll, closeAllGo_eq] at hca
      cases hca
    · exact ⟨rfl, closeAll_safe st hsafe st' hca⟩
  | hookFiredCmd n =>
    simp only [step]
    by_cases hh : hookInstalled st n = true
    · rw [if_pos hh]
      exact ⟨rfl, markDisconnected_safe st n hsafe⟩
    · rw [if_neg hh]
      exact ⟨rfl, hsafe⟩

/-- C7: starting from a pool whose registered servers all lack
credential-refresh configuration, no sequence of public operations (or
transport hook firings) ever produces a forced-refresh retry: the
accumulated event trace contains no forced-refresh transport build and
no forced-refresh reconnect; only the plain (connection-error) recovery
path can run. -/
theorem c7_no_forced_refresh_without_auth :
    ∀ cmds st w, SafePool st →
      (∀ cfg, Cmd.connectCmd cfg ∈ cmds → usesAuthTokenCommand cfg = false) →
      forcedRefreshEvents (run st w cmds).2 = [] := by
  intro cmds
  induction cmds with
  | nil => intro st w _ _; rfl
  | cons c rest ih =>
    intro st w hsafe hcmds
    rcases hstep : step st w c with ⟨st', w', tr⟩
    obtain ⟨htr, hst⟩ := step_safe st w c hsafe
      (fun cfg hcfg => hcmds cfg (hcfg ▸ List.mem_cons_self _ _))
    rw [hstep] at htr hst
    rcases hrun : run st' w' rest with ⟨stf, trs⟩
    have hrest := ih st' w' hst (fun cfg hm => hcmds cfg (List.mem_cons_of_mem _ hm))
    rw [hrun] at hrest
    show forcedRefreshEvents (run st w (c :: rest)).2 = []
    rw [run, hstep]
    show forcedRefreshEvents
      (match run st' w' rest with | (a, b) => (a, tr ++ b)).2 = []
    rw [hrun]
    show forcedRefreshEvents (tr ++ trs) = []
    rw [forcedRefreshEvents_append, htr, hrest]
    rfl

/-- Witness for C7: a concrete run (connect a stdio server, have a call
fail with a connection error and recover, fire the transport hook,
close) produces no forced-refresh event. -/
theorem c7_no_forced_refresh_without_auth_witness :
    forcedRefreshEvents (run ⟨[], []⟩
      ⟨0, [], [none, none], [OpOutcome.err (jsS ("EPIPE")), OpOutcome.ok 1], []⟩
      [Cmd.connectCmd exCfgA, Cmd.callToolCmd (jsS ("alpha")) (jsS ("t")) (jsS ("a")),
        Cmd.hookFiredCmd (jsS ("alpha")), Cmd.closeAllCmd]).2 = [] :=
  c7_no_forced_refresh_without_auth
    [Cmd.connectCmd exCfgA, Cmd.callToolCmd (jsS ("alpha")) (jsS ("t")) (jsS ("a")),
      Cmd.hookFiredCmd (jsS ("alpha")), Cmd.closeAllCmd]
    ⟨[], []⟩ ⟨0, [], [none, none], [OpOutcome.err (jsS ("EPIPE")), OpOutcome.ok 1], []⟩
    (by intro p hp; cases hp)
    (by
      intro cfg hm
      simp at hm
      subst hm
      rfl)
